import Mathlib

set_option maxHeartbeats 1000000

/-!
Verification development for the athena file-ingestion pipeline.

The definitions below are a shallow embedding of the Python sources:
  app/models/control.py        (ControlTable row)
  app/core/csv_file_handler.py (CSVHandler: _convert_data_type, process_csv_file,
                                validate_csv_structure)
  app/core/db_handler.py       (DatabaseHandler: validate_and_prepare_data, insert_data)
  app/core/processor.py        (FileProcessor: process_file, _process_file_content,
                                _process_batches, _archive_file, _handle_error,
                                retry_failed_files, _retry_file)

Modelling conventions: a `session.commit()` on the control record persists the
record as currently assigned (the persisted ledger state is the last committed
snapshot); external effects (chunk inserts succeeding, file moves succeeding,
the validator verdict) are oracles passed as parameters; the observable
behaviour of a run is a list of events (ledger commits, insert attempts over
the store, file moves, validation-gate calls).
-/

/-! ## Control ledger data model (app/models/control.py) -/

inductive Status where
  | INITIATED
  | IN_PROGRESS
  | SUCCESS
  | ERROR
  | PENDING_RETRY
  deriving DecidableEq

inductive FileLocation where
  | INPUT
  | ARCHIVE
  | ERROR
  deriving DecidableEq

/-- One row of the `file_processing_control` table (fields the pipeline writes). -/
structure ControlRecord where
  process_id : String
  file_name : String
  file_path : String
  target_table : String
  status : Status
  total_rows : Option Nat
  loaded_rows : Option Nat
  error_message : Option String
  current_batch : Option Nat
  file_location : FileLocation
  deriving DecidableEq

/-- Storage folders and the date stamp used for archive/error destinations
(config.storage_config and datetime.now().strftime in processor.py). -/
structure StorageCfg where
  input_folder : String
  archive_folder : String
  error_folder : String
  date_stamp : String
  deriving DecidableEq

/-- Observable events of one pipeline run: control-record commits, insert
attempts against the target table, file moves, and validation-gate calls. -/
inductive Event (α : Type) where
  | ledgerCommit (r : ControlRecord)
  | validateCall (rows : List α)
  | insertAttempt (batch : Nat) (rows : Nat) (ok : Bool)
  | moveFile (src : String) (dst : String) (ok : Bool)

/-- The control record as created at the top of FileProcessor.process_file. -/
def init_control_record (pid fname fpath table : String) : ControlRecord :=
  { process_id := pid
    file_name := fname
    file_path := fpath
    target_table := table
    status := Status.INITIATED
    total_rows := none
    loaded_rows := none
    error_message := none
    current_batch := none
    file_location := FileLocation.INPUT }

/-! ## Chunking (`for i in range(0, len(df), batch_size)` / `df.iloc[i:i+n]`) -/

/-- Fuel-driven worker for `chunkList`; the fuel is the list length, which
suffices for any positive chunk size. -/
def chunkListGo (n : Nat) : Nat → List α → List (List α)
  | _, [] => []
  | 0, _ :: _ => []
  | fuel + 1, x :: xs => (x :: xs).take n :: chunkListGo n fuel ((x :: xs).drop n)

/-- The consecutive slices `l[0:n], l[n:2n], ...` taken by the batch loops. -/
def chunkList (n : Nat) (l : List α) : List (List α) :=
  chunkListGo n l.length l

/-! ## Typed values and error taxonomy -/

/-- Python values produced by CSVHandler._convert_data_type. Numeric, date and
datetime payloads are carried in parsed form; `float` keeps the accepted
literal text. -/
inductive PyValue where
  | none
  | str (s : String)
  | int (n : Int)
  | float (lit : String)
  | date (y m d : Nat)
  | datetime (y mo d h mi s : Nat)
  | bool (b : Bool)
  deriving DecidableEq

inductive CsvError where
  | schemaMismatch (got : Nat) (required_cols : Nat)
  | requiredFieldEmpty (col : String) (row : Nat)
  | conversionError (col : String) (row : Nat)
  deriving DecidableEq

inductive DbError where
  | missingRequiredColumn (col : String)
  | chunkLoadFailed
  deriving DecidableEq

/-! ## String primitives, modelled over character lists so that the kernel can
evaluate them (`str.lower`, `str.strip`, `str.split`). -/

/-- Python `str.lower()`. -/
def toLowerStr (s : String) : String :=
  String.mk (s.data.map Char.toLower)

/-- Python `str.strip()`: leading and trailing whitespace removed. -/
def trimStr (s : String) : String :=
  String.mk (((s.data.dropWhile Char.isWhitespace).reverse.dropWhile
    Char.isWhitespace).reverse)

/-- Worker for `splitOnChar`. -/
def splitOnCharGo (sep : Char) : List Char → List Char → List (List Char)
  | [], acc => [acc.reverse]
  | c :: cs, acc =>
    if c = sep then acc.reverse :: splitOnCharGo sep cs []
    else splitOnCharGo sep cs (c :: acc)

/-- Split a character list on a single-character separator. -/
def splitOnChar (sep : Char) (l : List Char) : List (List Char) :=
  splitOnCharGo sep l []

/-- Decimal digits to a number; none when empty or not all digits. -/
def natOfDigits (l : List Char) : Option Nat :=
  if l.isEmpty then none
  else if l.all Char.isDigit then
    some (l.foldl (fun a c => a * 10 + (c.toNat - 48)) 0)
  else none

/-! ## Type coercion (CSVHandler._convert_data_type) -/

/-- Model of Python `int(value)`: surrounding whitespace stripped, optional
sign, decimal digits. -/
def pyInt (s : String) : Option Int :=
  match (trimStr s).data with
  | '-' :: rest => (natOfDigits rest).map (fun n => -(n : Int))
  | '+' :: rest => (natOfDigits rest).map (fun n => (n : Int))
  | l => (natOfDigits l).map (fun n => (n : Int))

/-- Nonempty all-digit character list. -/
def digitRun (l : List Char) : Bool :=
  !l.isEmpty && l.all Char.isDigit

/-- Model of Python `float(value)` acceptance: optional sign, digits with an
optional fractional part. -/
def isFloatLit (s : String) : Bool :=
  let t := (trimStr s).data
  let t2 := match t with
    | '-' :: rest => rest
    | '+' :: rest => rest
    | _ => t
  match splitOnChar '.' t2 with
  | [a] => digitRun a
  | [a, b] => (digitRun a && (b.isEmpty || digitRun b)) || (a.isEmpty && digitRun b)
  | _ => false

/-- Model of `datetime.strptime(value, "%Y-%m-%d").date()`. -/
def parseDateL (l : List Char) : Option (Nat × Nat × Nat) :=
  match splitOnChar '-' l with
  | [y, m, d] =>
    match natOfDigits y, natOfDigits m, natOfDigits d with
    | some yn, some mn, some dn =>
      if 1 ≤ mn && mn ≤ 12 && 1 ≤ dn && dn ≤ 31 then some (yn, mn, dn) else none
    | _, _, _ => none
  | _ => none

/-- Model of the `%H:%M:%S` part of `datetime.strptime`. -/
def parseTimeL (l : List Char) : Option (Nat × Nat × Nat) :=
  match splitOnChar ':' l with
  | [h, m, sec] =>
    match natOfDigits h, natOfDigits m, natOfDigits sec with
    | some hn, some mn, some sn =>
      if hn ≤ 23 && mn ≤ 59 && sn ≤ 59 then some (hn, mn, sn) else none
    | _, _, _ => none
  | _ => none

/-- Model of `datetime.strptime(value, "%Y-%m-%d %H:%M:%S")`. -/
def parseDateTimeL (l : List Char) : Option (Nat × Nat × Nat × Nat × Nat × Nat) :=
  match splitOnChar ' ' l with
  | [d, t] =>
    match parseDateL d, parseTimeL t with
    | some (y, mo, dd), some (h, mi, sec) => some (y, mo, dd, h, mi, sec)
    | _, _ => none
  | _ => none

/-- CSVHandler._convert_data_type.  The csv module always yields `str` cells,
so the `value is None or value == ''` guard is modelled by `value = ""`. -/
def convert_data_type (value : String) (data_type : String) : Except String PyValue :=
  if value = "" then Except.ok PyValue.none
  else if toLowerStr data_type = "string" then Except.ok (PyValue.str (trimStr value))
  else if toLowerStr data_type = "integer" then
    match pyInt value with
    | some n => Except.ok (PyValue.int n)
    | none => Except.error "Data type conversion error"
  else if toLowerStr data_type = "float" then
    if isFloatLit value then Except.ok (PyValue.float (trimStr value))
    else Except.error "Data type conversion error"
  else if toLowerStr data_type = "date" then
    match parseDateL value.data with
    | some (y, m, d) => Except.ok (PyValue.date y m d)
    | none => Except.error "Data type conversion error"
  else if toLowerStr data_type = "datetime" then
    match parseDateTimeL value.data with
    | some (y, mo, d, h, mi, sec) => Except.ok (PyValue.datetime y mo d h mi sec)
    | none => Except.error "Data type conversion error"
  else if toLowerStr data_type = "boolean" then
    Except.ok (PyValue.bool (["true", "1", "yes", "y"].contains (toLowerStr value)))
  else
    Except.ok (PyValue.str (trimStr value))

/-! ## Schema-mapped row parsing (CSVHandler.process_csv_file) -/

/-- One entry of a pattern's `column_mappings` configuration list. -/
structure ColumnMapping where
  column_index : Nat
  db_column : String
  data_type : String
  required : Bool
  deriving DecidableEq

/-- The `index_to_column` dict comprehension: a later mapping with the same
index overwrites an earlier one, hence the lookup on the reversed list. -/
def indexToColumn (mappings : List ColumnMapping) (i : Nat) : Option ColumnMapping :=
  mappings.reverse.find? (fun m => m.column_index == i)

/-- The `for col_idx, value in enumerate(row)` loop of process_csv_file:
only indices actually present in the row are visited; records are Python
dicts, modelled as functions `String → Option PyValue`. -/
def process_row_fields (mappings : List ColumnMapping) (rowNum : Nat) :
    List String → Nat → (String → Option PyValue) →
    Except CsvError (String → Option PyValue)
  | [], _, rec => Except.ok rec
  | v :: vs, i, rec =>
    match indexToColumn mappings i with
    | Option.none => process_row_fields mappings rowNum vs (i + 1) rec
    | Option.some m =>
      if m.required = true ∧ trimStr v = "" then
        Except.error (CsvError.requiredFieldEmpty m.db_column rowNum)
      else
        match convert_data_type v m.data_type with
        | Except.error _ => Except.error (CsvError.conversionError m.db_column rowNum)
        | Except.ok val =>
          process_row_fields mappings rowNum vs (i + 1)
            (fun c => if c = m.db_column then some val else rec c)

/-- Processing of one CSV data row into a record dict. -/
def process_row (mappings : List ColumnMapping) (rowNum : Nat) (row : List String) :
    Except CsvError (String → Option PyValue) :=
  process_row_fields mappings rowNum row 0 (fun _ => none)

/-! ## Structural validation (CSVHandler.validate_csv_structure) -/

/-- `max(mapping['column_index'] for mapping in column_mappings)`; Python max
on a nonempty list agrees with this fold. -/
def maxColIndex (mappings : List ColumnMapping) : Nat :=
  (mappings.map (fun m => m.column_index)).foldl Nat.max 0

/-- CSVHandler.validate_csv_structure applied to the already-read first row:
raises when `len(first_row) <= max_col_index`. -/
def validate_csv_structure (mappings : List ColumnMapping) (first_row : List String) :
    Except CsvError Bool :=
  if first_row.length ≤ maxColIndex mappings then
    Except.error (CsvError.schemaMismatch first_row.length (maxColIndex mappings + 1))
  else
    Except.ok true

/-! ## Load-time schema reconciliation (DatabaseHandler.validate_and_prepare_data) -/

/-- Live-schema column facts used by validate_and_prepare_data: `nullable` and
whether `col_info['default'] is not None`. -/
structure ColInfo where
  nullable : Bool
  hasDefault : Bool
  deriving DecidableEq

/-- The per-record loop body of validate_and_prepare_data, iterating the live
schema columns in order (the schema is a dict, so its keys are distinct). -/
def prepare_record (record : String → Option PyValue) :
    List (String × ColInfo) → Except DbError (String → Option PyValue)
  | [] => Except.ok (fun _ => none)
  | (col, info) :: rest =>
    match record col with
    | Option.some v =>
      match prepare_record record rest with
      | Except.ok pr => Except.ok (fun c => if c = col then some v else pr c)
      | Except.error e => Except.error e
    | Option.none =>
      if info.hasDefault then prepare_record record rest
      else if info.nullable then
        match prepare_record record rest with
        | Except.ok pr => Except.ok (fun c => if c = col then some PyValue.none else pr c)
        | Except.error e => Except.error e
      else Except.error (DbError.missingRequiredColumn col)

/-- First-error traversal, matching the Python loop that raises at the first
offending record. -/
def mapExcept (f : ρ → Except ε β) : List ρ → Except ε (List β)
  | [] => Except.ok []
  | x :: xs =>
    match f x with
    | Except.error e => Except.error e
    | Except.ok y =>
      match mapExcept f xs with
      | Except.error e => Except.error e
      | Except.ok ys => Except.ok (y :: ys)

/-- DatabaseHandler.validate_and_prepare_data (`if not data: return []`). -/
def validate_and_prepare_data (schema : List (String × ColInfo))
    (data : List (String → Option PyValue)) :
    Except DbError (List (String → Option PyValue)) :=
  if data.isEmpty then Except.ok []
  else mapExcept (fun r => prepare_record r schema) data

/-- Result of one DatabaseHandler.insert_data call: rows committed by its
session (a chunk failure rolls the whole session back), chunks sent to the
store, and the outcome. -/
structure InsertResult where
  committed : Nat
  sent : Nat
  ok : Bool
  err : Option DbError
  deriving DecidableEq

/-- The inner chunk loop of insert_data: each chunk is one execute; the loop
stops at the first store rejection. Returns (chunks sent, all succeeded). -/
def sendChunks (chunkOk : Nat → Bool) : List (List ρ) → Nat → Nat × Bool
  | [], _ => (0, true)
  | _ :: cs, j =>
    if chunkOk j then
      let rest := sendChunks chunkOk cs (j + 1)
      (rest.1 + 1, rest.2)
    else (1, false)

/-- DatabaseHandler.insert_data: early return on empty data, then
validate_and_prepare_data over the whole data set, then the chunk loop inside
one session (committed only if every chunk succeeded). -/
def insert_data (chunkOk : Nat → Bool) (schema : List (String × ColInfo))
    (data : List (String → Option PyValue)) (batch_size : Nat) : InsertResult :=
  if data.isEmpty then { committed := 0, sent := 0, ok := true, err := none }
  else
    match validate_and_prepare_data schema data with
    | Except.error e => { committed := 0, sent := 0, ok := false, err := some e }
    | Except.ok prepared =>
      let sc := sendChunks chunkOk (chunkList batch_size prepared) 1
      if sc.2 then { committed := prepared.length, sent := sc.1, ok := true, err := none }
      else { committed := 0, sent := sc.1, ok := false, err := some DbError.chunkLoadFailed }

/-! ## Batch loading with checkpointing (FileProcessor._process_batches) -/

/-- Outcome of the chunk loop: emitted events, last committed control record,
whether all chunks committed, and the `total_loaded` counter. -/
structure ChunkResult (α : Type) where
  events : List (Event α)
  record : ControlRecord
  ok : Bool
  total : Nat

/-- The loop body of _process_batches: per chunk it assigns and commits
`current_batch`, calls insert_data (oracle `insertOk`, indexed by the 1-based
batch number `i // batch_size + 1`), and on success assigns and commits
`loaded_rows`; on failure it re-raises at once. -/
def runChunks (insertOk : Nat → Bool) :
    List (List α) → Nat → Nat → ControlRecord → ChunkResult α
  | [], _, total, r => { events := [], record := r, ok := true, total := total }
  | c :: cs, b, total, r =>
    let r1 := { r with current_batch := some b }
    if insertOk b then
      let total1 := total + c.length
      let r2 := { r1 with loaded_rows := some total1 }
      let rest := runChunks insertOk cs (b + 1) total1 r2
      { events := Event.ledgerCommit r1 :: Event.insertAttempt b c.length true ::
          Event.ledgerCommit r2 :: rest.events
        record := rest.record
        ok := rest.ok
        total := rest.total }
    else
      { events := [Event.ledgerCommit r1, Event.insertAttempt b c.length false]
        record := r1
        ok := false
        total := total }

/-- The batch size hardcoded in FileProcessor._process_batches. -/
def default_batch_size : Nat := 1000

/-- FileProcessor._process_batches; the source fixes the chunk size to
`default_batch_size`, carried here as the parameter `chunkSize`. -/
def process_batches (insertOk : Nat → Bool) (chunkSize : Nat) (df : List α)
    (r : ControlRecord) : ChunkResult α :=
  runChunks insertOk (chunkList chunkSize df) 1 0 r

/-- The `current_batch` values among the committed ledger snapshots of a trace,
in commit order. -/
def batchWrites : List (Event α) → List Nat
  | [] => []
  | Event.ledgerCommit r :: tl => r.current_batch.toList ++ batchWrites tl
  | Event.validateCall _ :: tl => batchWrites tl
  | Event.insertAttempt _ _ _ :: tl => batchWrites tl
  | Event.moveFile _ _ _ :: tl => batchWrites tl

/-- Number of insert attempts (chunks sent to the loader) in a trace. -/
def countInserts : List (Event α) → Nat
  | [] => 0
  | Event.insertAttempt _ _ _ :: tl => countInserts tl + 1
  | Event.ledgerCommit _ :: tl => countInserts tl
  | Event.validateCall _ :: tl => countInserts tl
  | Event.moveFile _ _ _ :: tl => countInserts tl

/-- Closed form of the `current_batch` write sequence produced by a run of
`n` chunks starting at batch number `b`. -/
def batchSeq (insertOk : Nat → Bool) : Nat → Nat → List Nat
  | 0, _ => []
  | n + 1, b => if insertOk b then b :: b :: batchSeq insertOk n (b + 1) else [b]

/-- Last element of a write sequence, with a fallback. -/
def lastBatch : List Nat → Option Nat → Option Nat
  | [], d => d
  | x :: xs, _ => lastBatch xs (some x)

/-! ## Per-file content processing (FileProcessor._process_file_content) -/

/-- Outcome of _process_file_content: events, last committed record, success
flag, error text for the raise, and rows present in the target table. -/
structure ContentResult (α : Type) where
  events : List (Event α)
  record : ControlRecord
  ok : Bool
  msg : String
  inserted : Nat

/-- FileProcessor._process_file_content: commit `total_rows`, call the
validation gate once on the full row set (verdict oracle `validate`), raise
before any load when invalid, otherwise run the batch loop.
(_add_metadata_columns only adds a constant column per row and is dropped as
it does not change row counts or ledger fields.) -/
def process_file_content (validate : List α → Bool) (insertOk : Nat → Bool)
    (chunkSize : Nat) (df : List α) (r : ControlRecord) : ContentResult α :=
  let r1 := { r with total_rows := some df.length }
  if validate df then
    let res := process_batches insertOk chunkSize df r1
    { events := Event.ledgerCommit r1 :: Event.validateCall df :: res.events
      record := res.record
      ok := res.ok
      msg := if res.ok then "" else "batch failed"
      inserted := res.total }
  else
    { events := [Event.ledgerCommit r1, Event.validateCall df]
      record := r1
      ok := false
      msg := "Data validation failed"
      inserted := 0 }

/-! ## Error routing and archiving (FileProcessor._handle_error, _archive_file) -/

/-- The field assignments of _handle_error before its commit. -/
def errorRecord (msg : String) (r : ControlRecord) : ControlRecord :=
  { r with status := Status.ERROR
           error_message := some msg
           file_location := FileLocation.ERROR }

/-- Error destination: `error_folder/YYYYMMDD_filename`. -/
def errorDest (cfg : StorageCfg) (fname : String) : String :=
  cfg.error_folder ++ "/" ++ cfg.date_stamp ++ "_" ++ fname

/-- Archive destination: `archive_folder/YYYYMMDD_filename`. -/
def archiveDest (cfg : StorageCfg) (fname : String) : String :=
  cfg.archive_folder ++ "/" ++ cfg.date_stamp ++ "_" ++ fname

/-- FileProcessor._handle_error: sets status/error_message, moves the file to
the error folder, sets file_location and commits; when the move fails the
commit is never reached, so nothing new is persisted. -/
def handle_error (errorOk : Bool) (cfg : StorageCfg) (fname fpath msg : String)
    (r : ControlRecord) : List (Event α) × ControlRecord :=
  if errorOk then
    ([Event.moveFile fpath (errorDest cfg fname) true,
      Event.ledgerCommit (errorRecord msg r)],
     errorRecord msg r)
  else
    ([Event.moveFile fpath (errorDest cfg fname) false], r)

/-- Outcome of one FileProcessor.process_file attempt. -/
structure FileResult (α : Type) where
  events : List (Event α)
  record : ControlRecord
  inserted : Nat

/-- FileProcessor.process_file: create and commit the INITIATED record, commit
IN_PROGRESS, process content, then _archive_file (move first, terminal commit
after) on success; any failure is routed through _handle_error.  `archiveOk`
and `errorOk` are the move oracles for the two folders. -/
def process_file (validate : List α → Bool) (insertOk : Nat → Bool)
    (archiveOk errorOk : Bool) (chunkSize : Nat) (cfg : StorageCfg)
    (pid fname fpath table : String) (df : List α) : FileResult α :=
  let r0 := init_control_record pid fname fpath table
  let r1 := { r0 with status := Status.IN_PROGRESS }
  let content := process_file_content validate insertOk chunkSize df r1
  let pre := Event.ledgerCommit r0 :: Event.ledgerCommit r1 :: content.events
  if content.ok then
    if archiveOk then
      let r2 := { content.record with status := Status.SUCCESS
                                      file_location := FileLocation.ARCHIVE }
      { events := pre ++ [Event.moveFile fpath (archiveDest cfg fname) true,
          Event.ledgerCommit r2]
        record := r2
        inserted := content.inserted }
    else
      let he := handle_error errorOk cfg fname fpath "archive move failed" content.record
      { events := pre ++ (Event.moveFile fpath (archiveDest cfg fname) false :: he.1)
        record := he.2
        inserted := content.inserted }
  else
    let he := handle_error errorOk cfg fname fpath content.msg content.record
    { events := pre ++ he.1
      record := he.2
      inserted := content.inserted }

/-! ## Retry of failed files (FileProcessor.retry_failed_files, _retry_file) -/

/-- FileProcessor._retry_file: with `start_from_failure` false the counters are
zeroed first; then the file is moved back to the input folder and, only if the
move succeeded, file_location/status are set and committed.  Counter zeroing
persists even on a failed move, through the commit closing the surrounding
session. -/
def retry_file (startFromFailure moveOk : Bool) (r : ControlRecord) : ControlRecord :=
  let r1 := if startFromFailure then r
            else { r with current_batch := some 0, loaded_rows := some 0 }
  if moveOk then
    { r1 with file_location := FileLocation.INPUT, status := Status.PENDING_RETRY }
  else r1

/-- FileProcessor.retry_failed_files: the query keeps exactly the records with
status ERROR and _retry_file is applied to each; all other records are left
untouched. -/
def retry_failed_files (startFromFailure : Bool) (moveOk : String → Bool)
    (recs : List ControlRecord) : List ControlRecord :=
  recs.map (fun r =>
    if r.status = Status.ERROR then retry_file startFromFailure (moveOk r.file_name) r
    else r)

/-! ## Decidable equality for `Except`, used by concrete evaluations -/

instance [DecidableEq ε] [DecidableEq α] : DecidableEq (Except ε α) := fun x y =>
  match x, y with
  | Except.ok u, Except.ok v =>
    if h : u = v then isTrue (by rw [h]) else isFalse (by simp [h])
  | Except.error u, Except.error v =>
    if h : u = v then isTrue (by rw [h]) else isFalse (by simp [h])
  | Except.ok _, Except.error _ => isFalse (by simp)
  | Except.error _, Except.ok _ => isFalse (by simp)

/-- Concrete storage configuration used by witnesses. -/
def cfgW : StorageCfg :=
  { input_folder := "input"
    archive_folder := "archive"
    error_folder := "error"
    date_stamp := "20250101" }

/-- Concrete ERROR control record used by witnesses. -/
def recW : ControlRecord :=
  { process_id := "pid-1"
    file_name := "data.csv"
    file_path := "input/data.csv"
    target_table := "t"
    status := Status.ERROR
    total_rows := some 3
    loaded_rows := some 2
    error_message := some "boom"
    current_batch := some 2
    file_location := FileLocation.ERROR }

/-! ## C8 — boolean coercion -/

/-- C8 counterexample: the claim says boolean coercion returns false for every
value outside the true-set, but the empty string is outside the true-set and
converts to None (null), not false. -/
theorem c8_counterexample :
    convert_data_type "" "boolean" = Except.ok PyValue.none ∧
    PyValue.none ≠ PyValue.bool false ∧
    (["true", "1", "yes", "y"].contains (toLowerStr "")) = false := by
  decide

/-- C8 (amended): for every nonempty input string, boolean coercion is total
and never raises: it returns true exactly when the value case-insensitively
matches one of true, 1, yes, y, and false for every other nonempty value;
the empty string is converted to None by the empty-value guard. -/
theorem c8_boolean_coercion (v : String) (h : v ≠ "") :
    convert_data_type v "boolean" =
      Except.ok (PyValue.bool (["true", "1", "yes", "y"].contains (toLowerStr v))) := by
  unfold convert_data_type
  rw [if_neg h, if_neg (by decide), if_neg (by decide), if_neg (by decide),
    if_neg (by decide), if_neg (by decide), if_pos (by decide)]

/-- C8 witness: the amended theorem applied to the spec scenario value
"maybe", which converts to false with no error. -/
theorem c8_boolean_coercion_witness :
    "maybe" ≠ "" ∧
    convert_data_type "maybe" "boolean" =
      Except.ok (PyValue.bool (["true", "1", "yes", "y"].contains (toLowerStr "maybe"))) :=
  ⟨by decide, c8_boolean_coercion "maybe" (by decide)⟩

/-! ## C5 — structural schema mismatch -/

/-- C5: when the first row has fewer columns than `max(source_index) + 1`,
validate_csv_structure fails with a SchemaMismatch error, and the error
handler run for the attempt moves the file to the error destination and
commits the record with status ERROR and file_location ERROR. -/
theorem c5_schema_mismatch (mappings : List ColumnMapping) (first_row : List String)
    (hne : mappings ≠ []) (hshort : first_row.length < maxColIndex mappings + 1)
    (cfg : StorageCfg) (fname fpath msg : String) (r : ControlRecord) :
    validate_csv_structure mappings first_row =
      Except.error (CsvError.schemaMismatch first_row.length (maxColIndex mappings + 1)) ∧
    (handle_error true cfg fname fpath msg r : List (Event Unit) × ControlRecord).2.status
      = Status.ERROR ∧
    (handle_error true cfg fname fpath msg r : List (Event Unit) × ControlRecord).2.file_location
      = FileLocation.ERROR ∧
    (handle_error true cfg fname fpath msg r : List (Event Unit) × ControlRecord).1
      = [Event.moveFile fpath (errorDest cfg fname) true,
         Event.ledgerCommit (errorRecord msg r)] := by
  refine ⟨?_, rfl, rfl, rfl⟩
  unfold validate_csv_structure
  rw [if_pos (Nat.lt_succ_iff.mp hshort)]

/-- C5 witness: a one-mapping pattern requiring two columns against a
one-column first row. -/
theorem c5_schema_mismatch_witness :
    ([({ column_index := 1, db_column := "a", data_type := "string",
         required := true } : ColumnMapping)] ≠ []) ∧
    (["x"] : List String).length < maxColIndex
      [{ column_index := 1, db_column := "a", data_type := "string", required := true }] + 1 ∧
    validate_csv_structure
      [{ column_index := 1, db_column := "a", data_type := "string", required := true }]
      ["x"] = Except.error (CsvError.schemaMismatch 1 2) :=
  ⟨by decide, by decide,
    (c5_schema_mismatch
      [{ column_index := 1, db_column := "a", data_type := "string", required := true }]
      ["x"] (by decide) (by decide) cfgW "data.csv" "input/data.csv" "boom" recW).1⟩

/-! ## C10 — retry with start_from_failure keeps the checkpoint fields -/

/-- C10: for an ERROR record, retry with start_from_failure leaves
current_batch and loaded_rows (and every other field except status and
file_location) unchanged, whether or not the move back to input succeeds. -/
theorem c10_retry_frame (r : ControlRecord) (moveOk : Bool) (h : r.status = Status.ERROR) :
    (retry_file true moveOk r).current_batch = r.current_batch ∧
    (retry_file true moveOk r).loaded_rows = r.loaded_rows ∧
    (retry_file true moveOk r).process_id = r.process_id ∧
    (retry_file true moveOk r).file_name = r.file_name ∧
    (retry_file true moveOk r).file_path = r.file_path ∧
    (retry_file true moveOk r).target_table = r.target_table ∧
    (retry_file true moveOk r).total_rows = r.total_rows ∧
    (retry_file true moveOk r).error_message = r.error_message := by
  cases moveOk <;> simp [retry_file]

/-- C10 witness: the frame condition evaluated on a concrete ERROR record. -/
theorem c10_retry_frame_witness :
    recW.status = Status.ERROR ∧
    (retry_file true true recW).current_batch = recW.current_batch ∧
    (retry_file true true recW).loaded_rows = recW.loaded_rows :=
  ⟨by decide, (c10_retry_frame recW true (by decide)).1,
    (c10_retry_frame recW true (by decide)).2.1⟩

/-! ## C4 — retry requeues exactly the ERROR records -/

/-- C4: retry touches exactly the records with status ERROR; a non-ERROR
record is returned unchanged, and an ERROR record whose move back to the
input folder succeeds ends with file_location INPUT, status PENDING_RETRY,
current_batch 0 and loaded_rows 0 when resume-from-checkpoint is off. -/
theorem c4_retry_requeue (moveOk : String → Bool) (recs : List ControlRecord)
    (i : Nat) (r : ControlRecord) (h : recs[i]? = some r) :
    (r.status ≠ Status.ERROR → (retry_failed_files false moveOk recs)[i]? = some r) ∧
    (r.status = Status.ERROR → moveOk r.file_name = true →
      (retry_failed_files false moveOk recs)[i]? =
        some { r with current_batch := some 0, loaded_rows := some 0,
                      file_location := FileLocation.INPUT,
                      status := Status.PENDING_RETRY }) := by
  constructor
  · intro hs
    simp [retry_failed_files, List.getElem?_map, h, hs]
  · intro hs hm
    simp [retry_failed_files, List.getElem?_map, h, hs, retry_file, hm]

/-- C4 witness: a two-record ledger in which only the ERROR record is
requeued and reset. -/
theorem c4_retry_requeue_witness :
    ([recW, { recW with status := Status.SUCCESS }][0]? = some recW) ∧
    recW.status = Status.ERROR ∧
    (retry_failed_files false (fun _ => true)
        [recW, { recW with status := Status.SUCCESS }])[0]? =
      some { recW with current_batch := some 0, loaded_rows := some 0,
                       file_location := FileLocation.INPUT,
                       status := Status.PENDING_RETRY } :=
  ⟨by decide, by decide,
    (c4_retry_requeue (fun _ => true) [recW, { recW with status := Status.SUCCESS }]
      0 recW (by decide)).2 (by decide) (by decide)⟩

/-! ## Helper lemmas for schema reconciliation (C6) -/

/-- A column not mentioned in the schema is absent from the prepared record. -/
theorem prepare_record_absent (record : String → Option PyValue)
    (schema : List (String × ColInfo)) (pr : String → Option PyValue)
    (h : prepare_record record schema = Except.ok pr)
    (col : String) (hcol : col ∉ schema.map Prod.fst) : pr col = none := by
  induction schema generalizing pr with
  | nil =>
    simp only [prepare_record, Except.ok.injEq] at h
    subst h
    rfl
  | cons hd tl ih =>
    obtain ⟨c, i⟩ := hd
    simp only [List.map_cons, List.mem_cons, not_or] at hcol
    obtain ⟨hne, hrest⟩ := hcol
    simp only [prepare_record] at h
    cases hrc : record c with
    | some v =>
      rw [hrc] at h
      cases hpr : prepare_record record tl with
      | ok pr2 =>
        rw [hpr] at h
        simp only [Except.ok.injEq] at h
        subst h
        simpa [hne] using ih pr2 hpr hrest
      | error e => rw [hpr] at h; simp at h
    | none =>
      rw [hrc] at h
      cases hd1 : i.hasDefault with
      | true =>
        rw [hd1] at h
        simp only [if_true] at h
        exact ih pr h hrest
      | false =>
        rw [hd1] at h
        simp only [Bool.false_eq_true, if_false] at h
        cases hn1 : i.nullable with
        | true =>
          rw [hn1] at h
          simp only [if_true] at h
          cases hpr : prepare_record record tl with
          | ok pr2 =>
            rw [hpr] at h
            simp only [Except.ok.injEq] at h
            subst h
            simpa [hne] using ih pr2 hpr hrest
          | error e => rw [hpr] at h; simp at h
        | false =>
          rw [hn1] at h
          simp at h

/-- Every error of prepare_record is a missing-required-column error. -/
theorem prepare_record_error_form (record : String → Option PyValue)
    (schema : List (String × ColInfo)) (e : DbError)
    (h : prepare_record record schema = Except.error e) :
    ∃ c, e = DbError.missingRequiredColumn c := by
  induction schema with
  | nil => simp [prepare_record] at h
  | cons hd tl ih =>
    obtain ⟨c, i⟩ := hd
    simp only [prepare_record] at h
    cases hrc : record c with
    | some v =>
      rw [hrc] at h
      cases hpr : prepare_record record tl with
      | ok pr2 => rw [hpr] at h; simp at h
      | error e2 =>
        rw [hpr] at h
        simp only [Except.error.injEq] at h
        subst h
        exact ih hpr
    | none =>
      rw [hrc] at h
      cases hd1 : i.hasDefault with
      | true =>
        rw [hd1] at h
        simp only [if_true] at h
        exact ih h
      | false =>
        rw [hd1] at h
        simp only [Bool.false_eq_true, if_false] at h
        cases hn1 : i.nullable with
        | true =>
          rw [hn1] at h
          simp only [if_true] at h
          cases hpr : prepare_record record tl with
          | ok pr2 => rw [hpr] at h; simp at h
          | error e2 =>
            rw [hpr] at h
            simp only [Except.error.injEq] at h
            subst h
            exact ih hpr
        | false =>
          rw [hn1] at h
          simp only [Bool.false_eq_true, if_false, Except.error.injEq] at h
          exact ⟨c, h.symm⟩

/-- First-error traversal: an error of `f` at any element forces an error
overall. -/
theorem mapExcept_error_of_mem (f : ρ → Except ε β) (l : List ρ) (x : ρ)
    (hx : x ∈ l) (e : ε) (hfx : f x = Except.error e) :
    ∃ e2, mapExcept f l = Except.error e2 := by
  induction l with
  | nil => simp at hx
  | cons hd tl ih =>
    simp only [mapExcept]
    cases hhd : f hd with
    | error e3 => exact ⟨e3, rfl⟩
    | ok y =>
      rcases List.mem_cons.mp hx with hEq | hmem
      · subst hEq
        rw [hhd] at hfx
        simp at hfx
      · obtain ⟨e2, he2⟩ := ih hmem
        rw [he2]
        exact ⟨e2, rfl⟩

/-- The error returned by the traversal comes from some element. -/
theorem mapExcept_error_src (f : ρ → Except ε β) (l : List ρ) (e : ε)
    (h : mapExcept f l = Except.error e) : ∃ x ∈ l, f x = Except.error e := by
  induction l with
  | nil => simp [mapExcept] at h
  | cons hd tl ih =>
    simp only [mapExcept] at h
    cases hhd : f hd with
    | error e3 =>
      rw [hhd] at h
      simp only [Except.error.injEq] at h
      subst h
      exact ⟨hd, List.mem_cons_self hd tl, hhd⟩
    | ok y =>
      rw [hhd] at h
      cases htl : mapExcept f tl with
      | error e2 =>
        rw [htl] at h
        simp only [Except.error.injEq] at h
        subst h
        obtain ⟨x, hx, hfx⟩ := ih htl
        exact ⟨x, List.mem_cons_of_mem hd hx, hfx⟩
      | ok ys => rw [htl] at h; simp at h


/-- A row value present for a schema-declared column is kept verbatim. -/
theorem prepare_record_present (record : String → Option PyValue)
    (schema : List (String × ColInfo)) (pr : String → Option PyValue)
    (col : String) (v : PyValue)
    (hnd : (schema.map Prod.fst).Nodup)
    (hcol : col ∈ schema.map Prod.fst) (hv : record col = some v)
    (h : prepare_record record schema = Except.ok pr) : pr col = some v := by
  induction schema generalizing pr with
  | nil => simp at hcol
  | cons hd tl ih =>
    obtain ⟨c0, i0⟩ := hd
    simp only [List.map_cons, List.nodup_cons] at hnd
    obtain ⟨hc0, hndtl⟩ := hnd
    simp only [prepare_record] at h
    by_cases hEq : col = c0
    · subst hEq
      rw [hv] at h
      cases hpr : prepare_record record tl with
      | ok pr2 =>
        rw [hpr] at h
        simp only [Except.ok.injEq] at h
        subst h
        simp
      | error e => rw [hpr] at h; simp at h
    · have hcoltl : col ∈ tl.map Prod.fst := by
        rcases List.mem_cons.mp hcol with h1 | h1
        · exact absurd h1 hEq
        · exact h1
      cases hrc : record c0 with
      | some v0 =>
        rw [hrc] at h
        cases hpr : prepare_record record tl with
        | ok pr2 =>
          rw [hpr] at h
          simp only [Except.ok.injEq] at h
          subst h
          simpa [hEq] using ih pr2 hndtl hcoltl hpr
        | error e => rw [hpr] at h; simp at h
      | none =>
        rw [hrc] at h
        cases hd1 : i0.hasDefault with
        | true =>
          rw [hd1] at h
          simp only [if_true] at h
          exact ih pr hndtl hcoltl h
        | false =>
          rw [hd1] at h
          simp only [Bool.false_eq_true, if_false] at h
          cases hn1 : i0.nullable with
          | true =>
            rw [hn1] at h
            simp only [if_true] at h
            cases hpr : prepare_record record tl with
            | ok pr2 =>
              rw [hpr] at h
              simp only [Except.ok.injEq] at h
              subst h
              simpa [hEq] using ih pr2 hndtl hcoltl hpr
            | error e => rw [hpr] at h; simp at h
          | false =>
            rw [hn1] at h
            simp at h

/-- A schema column absent from the row and carrying a store default is
omitted from the prepared record. -/
theorem prepare_record_default_omitted (record : String → Option PyValue)
    (schema : List (String × ColInfo)) (pr : String → Option PyValue)
    (col : String) (info : ColInfo)
    (hnd : (schema.map Prod.fst).Nodup)
    (hmem : (col, info) ∈ schema) (hv : record col = none)
    (hdef : info.hasDefault = true)
    (h : prepare_record record schema = Except.ok pr) : pr col = none := by
  induction schema generalizing pr with
  | nil => simp at hmem
  | cons hd tl ih =>
    obtain ⟨c0, i0⟩ := hd
    simp only [List.map_cons, List.nodup_cons] at hnd
    obtain ⟨hc0, hndtl⟩ := hnd
    simp only [prepare_record] at h
    rcases List.mem_cons.mp hmem with hEq | hmemtl
    · injection hEq with h1 h2
      subst h1
      subst h2
      rw [hv, hdef] at h
      simp only [if_true] at h
      exact prepare_record_absent record tl pr h col hc0
    · have hne : col ≠ c0 := by
        intro hcc
        subst hcc
        exact hc0 (List.mem_map.mpr ⟨(col, info), hmemtl, rfl⟩)
      cases hrc : record c0 with
      | some v0 =>
        rw [hrc] at h
        cases hpr : prepare_record record tl with
        | ok pr2 =>
          rw [hpr] at h
          simp only [Except.ok.injEq] at h
          subst h
          simpa [hne] using ih pr2 hndtl hmemtl hpr
        | error e => rw [hpr] at h; simp at h
      | none =>
        rw [hrc] at h
        cases hd1 : i0.hasDefault with
        | true =>
          rw [hd1] at h
          simp only [if_true] at h
          exact ih pr hndtl hmemtl h
        | false =>
          rw [hd1] at h
          simp only [Bool.false_eq_true, if_false] at h
          cases hn1 : i0.nullable with
          | true =>
            rw [hn1] at h
            simp only [if_true] at h
            cases hpr : prepare_record record tl with
            | ok pr2 =>
              rw [hpr] at h
              simp only [Except.ok.injEq] at h
              subst h
              simpa [hne] using ih pr2 hndtl hmemtl hpr
            | error e => rw [hpr] at h; simp at h
          | false =>
            rw [hn1] at h
            simp at h

/-- A schema column absent from the row, with no default but nullable, is set
to null in the prepared record. -/
theorem prepare_record_nullable_null (record : String → Option PyValue)
    (schema : List (String × ColInfo)) (pr : String → Option PyValue)
    (col : String) (info : ColInfo)
    (hnd : (schema.map Prod.fst).Nodup)
    (hmem : (col, info) ∈ schema) (hv : record col = none)
    (hdef : info.hasDefault = false) (hnul : info.nullable = true)
    (h : prepare_record record schema = Except.ok pr) :
    pr col = some PyValue.none := by
  induction schema generalizing pr with
  | nil => simp at hmem
  | cons hd tl ih =>
    obtain ⟨c0, i0⟩ := hd
    simp only [List.map_cons, List.nodup_cons] at hnd
    obtain ⟨hc0, hndtl⟩ := hnd
    simp only [prepare_record] at h
    rcases List.mem_cons.mp hmem with hEq | hmemtl
    · injection hEq with h1 h2
      subst h1
      subst h2
      rw [hv, hdef, hnul] at h
      simp only [Bool.false_eq_true, if_false, if_true] at h
      cases hpr : prepare_record record tl with
      | ok pr2 =>
        rw [hpr] at h
        simp only [Except.ok.injEq] at h
        subst h
        simp
      | error e => rw [hpr] at h; simp at h
    · have hne : col ≠ c0 := by
        intro hcc
        subst hcc
        exact hc0 (List.mem_map.mpr ⟨(col, info), hmemtl, rfl⟩)
      cases hrc : record c0 with
      | some v0 =>
        rw [hrc] at h
        cases hpr : prepare_record record tl with
        | ok pr2 =>
          rw [hpr] at h
          simp only [Except.ok.injEq] at h
          subst h
          simpa [hne] using ih pr2 hndtl hmemtl hpr
        | error e => rw [hpr] at h; simp at h
      | none =>
        rw [hrc] at h
        cases hd1 : i0.hasDefault with
        | true =>
          rw [hd1] at h
          simp only [if_true] at h
          exact ih pr hndtl hmemtl h
        | false =>
          rw [hd1] at h
          simp only [Bool.false_eq_true, if_false] at h
          cases hn1 : i0.nullable with
          | true =>
            rw [hn1] at h
            simp only [if_true] at h
            cases hpr : prepare_record record tl with
            | ok pr2 =>
              rw [hpr] at h
              simp only [Except.ok.injEq] at h
              subst h
              simpa [hne] using ih pr2 hndtl hmemtl hpr
            | error e => rw [hpr] at h; simp at h
          | false =>
            rw [hn1] at h
            simp at h

/-- A schema column absent from the row, with no default and not nullable,
forces a missing-required-column error. -/
theorem prepare_record_required_error (record : String → Option PyValue)
    (schema : List (String × ColInfo)) (col : String) (info : ColInfo)
    (hmem : (col, info) ∈ schema) (hv : record col = none)
    (hdef : info.hasDefault = false) (hnul : info.nullable = false) :
    ∃ c, prepare_record record schema =
      Except.error (DbError.missingRequiredColumn c) := by
  induction schema with
  | nil => simp at hmem
  | cons hd tl ih =>
    obtain ⟨c0, i0⟩ := hd
    simp only [prepare_record]
    rcases List.mem_cons.mp hmem with hEq | hmemtl
    · injection hEq with h1 h2
      subst h1
      subst h2
      rw [hv, hdef, hnul]
      exact ⟨col, rfl⟩
    · obtain ⟨c, hc⟩ := ih hmemtl
      cases hrc : record c0 with
      | some v0 => rw [hc]; exact ⟨c, rfl⟩
      | none =>
        cases hd1 : i0.hasDefault with
        | true => simp only [if_true]; exact ⟨c, hc⟩
        | false =>
          simp only [Bool.false_eq_true, if_false]
          cases hn1 : i0.nullable with
          | true => simp only [if_true]; rw [hc]; exact ⟨c, rfl⟩
          | false => exact ⟨c0, by simp⟩

/-! ## C6 — load-time schema reconciliation -/

/-- C6: rows are reconciled against the live schema before any chunk is sent:
for a declared column, a value present in the row is kept; a column absent
from the row with a schema default is omitted; a column absent, defaultless
and nullable becomes null; a column absent, defaultless and not nullable
fails the whole load with MissingRequiredColumn while zero chunks have been
sent to the store. -/
theorem c6_reconciliation (schema : List (String × ColInfo))
    (hnd : (schema.map Prod.fst).Nodup)
    (record : String → Option PyValue) (col : String) (info : ColInfo)
    (hmem : (col, info) ∈ schema) :
    (∀ v pr, record col = some v → prepare_record record schema = Except.ok pr →
      pr col = some v) ∧
    (∀ pr, record col = none → info.hasDefault = true →
      prepare_record record schema = Except.ok pr → pr col = none) ∧
    (∀ pr, record col = none → info.hasDefault = false → info.nullable = true →
      prepare_record record schema = Except.ok pr → pr col = some PyValue.none) ∧
    (record col = none → info.hasDefault = false → info.nullable = false →
      (∃ c, prepare_record record schema =
        Except.error (DbError.missingRequiredColumn c)) ∧
      (∀ (chunkOk : Nat → Bool) (bs : Nat) (data : List (String → Option PyValue)),
        record ∈ data →
        ∃ c, insert_data chunkOk schema data bs =
          { committed := 0, sent := 0, ok := false,
            err := some (DbError.missingRequiredColumn c) })) := by
  refine ⟨?_, ?_, ?_, ?_⟩
  · intro v pr hv h
    exact prepare_record_present record schema pr col v hnd
      (List.mem_map.mpr ⟨(col, info), hmem, rfl⟩) hv h
  · intro pr hv hdef h
    exact prepare_record_default_omitted record schema pr col info hnd hmem hv hdef h
  · intro pr hv hdef hnul h
    exact prepare_record_nullable_null record schema pr col info hnd hmem hv hdef hnul h
  · intro hv hdef hnul
    obtain ⟨c, hc⟩ := prepare_record_required_error record schema col info hmem hv hdef hnul
    refine ⟨⟨c, hc⟩, ?_⟩
    intro chunkOk bs data hdata
    obtain ⟨e2, he2⟩ :=
      mapExcept_error_of_mem (fun r => prepare_record r schema) data record hdata
        (DbError.missingRequiredColumn c) hc
    obtain ⟨x, hx, hfx⟩ := mapExcept_error_src (fun r => prepare_record r schema) data e2 he2
    obtain ⟨c2, hc2⟩ := prepare_record_error_form x schema e2 hfx
    subst hc2
    refine ⟨c2, ?_⟩
    have hdataNe : data.isEmpty = false := by
      cases data with
      | nil => simp at hdata
      | cons a l => rfl
    simp only [insert_data, hdataNe, Bool.false_eq_true, if_false,
      validate_and_prepare_data, he2]

/-- Schema used by the C6 witness: `a` is required with no default, `b` has a
default, `c` is nullable with no default. -/
def schemaW : List (String × ColInfo) :=
  [("a", { nullable := false, hasDefault := false }),
   ("b", { nullable := false, hasDefault := true }),
   ("c", { nullable := true, hasDefault := false })]

/-- Record used by the C6 witness: no column present. -/
def recNoA : String → Option PyValue := fun _ => none

/-- C6 witness: a record missing the required column `a` makes the whole
insert fail with MissingRequiredColumn and zero chunks sent. -/
theorem c6_reconciliation_witness :
    (schemaW.map Prod.fst).Nodup ∧
    ("a", ({ nullable := false, hasDefault := false } : ColInfo)) ∈ schemaW ∧
    recNoA "a" = none ∧
    (∃ c, insert_data (fun _ => true) schemaW [recNoA] 1000 =
      { committed := 0, sent := 0, ok := false,
        err := some (DbError.missingRequiredColumn c) }) :=
  ⟨by decide, by decide, rfl,
    ((c6_reconciliation schemaW (by decide) recNoA "a"
        { nullable := false, hasDefault := false } (by decide)).2.2.2 rfl rfl rfl).2
      (fun _ => true) 1000 [recNoA] (List.mem_singleton.mpr rfl)⟩

/-! ## C9 — required-field check only sees indices present in the row -/

/-- The mapping found for an index belongs to the configuration and carries
that index. -/
theorem indexToColumn_mem (mappings : List ColumnMapping) (i : Nat)
    (m : ColumnMapping) (h : indexToColumn mappings i = some m) :
    m ∈ mappings ∧ m.column_index = i := by
  unfold indexToColumn at h
  refine ⟨List.mem_reverse.mp (List.mem_of_find?_eq_some h), ?_⟩
  have hp := List.find?_some h
  simpa using hp

/-- Generalized over the field loop: while every index still to be visited is
strictly below the target required column index, the loop neither raises the
required-field error for that column nor ever assigns it. -/
theorem process_row_fields_short (mappings : List ColumnMapping) (m : ColumnMapping)
    (hdis : ∀ m2 ∈ mappings, m2.db_column = m.db_column →
      m2.column_index = m.column_index)
    (rowNum : Nat) (vs : List String) :
    ∀ (i : Nat) (rec : String → Option PyValue),
      i + vs.length ≤ m.column_index → rec m.db_column = none →
      (process_row_fields mappings rowNum vs i rec ≠
        Except.error (CsvError.requiredFieldEmpty m.db_column rowNum)) ∧
      (∀ rec2, process_row_fields mappings rowNum vs i rec = Except.ok rec2 →
        rec2 m.db_column = none) := by
  induction vs with
  | nil =>
    intro i rec hle hrec
    constructor
    · simp [process_row_fields]
    · intro rec2 h
      simp only [process_row_fields, Except.ok.injEq] at h
      subst h
      exact hrec
  | cons v vs ih =>
    intro i rec hle hrec
    simp only [List.length_cons] at hle
    have hlt : i < m.column_index := by omega
    have hle2 : i + 1 + vs.length ≤ m.column_index := by omega
    simp only [process_row_fields]
    cases hidx : indexToColumn mappings i with
    | none => exact ih (i + 1) rec hle2 hrec
    | some m2 =>
      dsimp only
      obtain ⟨hmem2, hidx2⟩ := indexToColumn_mem mappings i m2 hidx
      have hne : m2.db_column ≠ m.db_column := by
        intro hcc
        have := hdis m2 hmem2 hcc
        omega
      by_cases hreq : m2.required = true ∧ trimStr v = ""
      · rw [if_pos hreq]
        constructor
        · intro hc
          simp only [Except.error.injEq, CsvError.requiredFieldEmpty.injEq] at hc
          exact hne hc.1
        · intro rec2 h
          simp at h
      · rw [if_neg hreq]
        cases hconv : convert_data_type v m2.data_type with
        | error e =>
          constructor
          · intro hc
            simp at hc
          · intro rec2 h
            simp at h
        | ok val =>
          have hcond : ¬ m.db_column = m2.db_column := by
            intro hcc
            exact hne hcc.symm
          have hrec2 :
              (fun c => if c = m2.db_column then some val else rec c) m.db_column
                = none := by
            simp only [if_neg hcond]
            exact hrec
          exact ih (i + 1) _ hle2 hrec2

/-- C9: a CSV row with fewer fields than a required column mapping's source
index plus one raises no required-field error for that column, and any record
it produces silently lacks the target column, because the field loop only
visits indices present in the row. -/
theorem c9_short_row_required (mappings : List ColumnMapping) (m : ColumnMapping)
    (hm : m ∈ mappings) (hreq : m.required = true)
    (hdis : ∀ m2 ∈ mappings, m2.db_column = m.db_column →
      m2.column_index = m.column_index)
    (rowNum : Nat) (row : List String) (hshort : row.length ≤ m.column_index) :
    (process_row mappings rowNum row ≠
      Except.error (CsvError.requiredFieldEmpty m.db_column rowNum)) ∧
    (∀ rec2, process_row mappings rowNum row = Except.ok rec2 →
      rec2 m.db_column = none) :=
  process_row_fields_short mappings m hdis rowNum row 0 (fun _ => none)
    (by simpa using hshort) rfl

/-- Mappings used by the C9 witness: column 0 is optional, column 1 is
required; the row has a single field. -/
def mappingsW : List ColumnMapping :=
  [{ column_index := 0, db_column := "a", data_type := "string", required := false },
   { column_index := 1, db_column := "b", data_type := "string", required := true }]

/-- C9 witness: the one-field row parses without a required-field error and
the produced record lacks the required target column. -/
theorem c9_short_row_required_witness :
    ({ column_index := 1, db_column := "b", data_type := "string",
       required := true } : ColumnMapping) ∈ mappingsW ∧
    (process_row mappingsW 1 ["x"] ≠
      Except.error (CsvError.requiredFieldEmpty "b" 1)) :=
  ⟨by decide,
    (c9_short_row_required mappingsW
      { column_index := 1, db_column := "b", data_type := "string", required := true }
      (by decide) (by decide) (by decide) 1 ["x"] (by decide)).1⟩

/-! ## Helper lemmas for chunking -/

/-- The chunk slices cover the list: their lengths sum to the list length. -/
theorem chunkListGo_sum_length (n : Nat) (hn : 0 < n) :
    ∀ (fuel : Nat) (l : List α), l.length ≤ fuel →
      ((chunkListGo n fuel l).map List.length).sum = l.length := by
  intro fuel
  induction fuel with
  | zero =>
    intro l hle
    cases l with
    | nil => simp [chunkListGo]
    | cons x xs => simp at hle
  | succ fuel ih =>
    intro l hle
    cases l with
    | nil => simp [chunkListGo]
    | cons x xs =>
      simp only [chunkListGo, List.map_cons, List.sum_cons]
      rw [ih ((x :: xs).drop n)
        (by simp only [List.length_drop, List.length_cons] at hle ⊢; omega)]
      simp only [List.length_take, List.length_drop, List.length_cons]
      omega

/-- chunkList covers the list. -/
theorem chunkList_sum_length (n : Nat) (hn : 0 < n) (l : List α) :
    ((chunkList n l).map List.length).sum = l.length :=
  chunkListGo_sum_length n hn l.length l (Nat.le_refl _)

/-- A nonempty list has at least one chunk. -/
theorem chunkList_ne_nil (n : Nat) (l : List α) (hl : l ≠ []) :
    chunkList n l ≠ [] := by
  cases l with
  | nil => exact absurd rfl hl
  | cons x xs => simp [chunkList, chunkListGo]

/-! ## Helper lemmas for the batch loop -/

/-- The chunk loop never touches status, total_rows, file_location or
error_message of the control record. -/
theorem runChunks_frame (insertOk : Nat → Bool) (cs : List (List α)) :
    ∀ (b total : Nat) (r : ControlRecord),
      ((runChunks insertOk cs b total r).record.status = r.status) ∧
      ((runChunks insertOk cs b total r).record.total_rows = r.total_rows) ∧
      ((runChunks insertOk cs b total r).record.file_location = r.file_location) ∧
      ((runChunks insertOk cs b total r).record.error_message = r.error_message) := by
  induction cs with
  | nil =>
    intro b total r
    exact ⟨rfl, rfl, rfl, rfl⟩
  | cons c cs ih =>
    intro b total r
    simp only [runChunks]
    by_cases hb : insertOk b = true
    · rw [if_pos hb]
      exact ih (b + 1) (total + c.length)
        { r with current_batch := some b, loaded_rows := some (total + c.length) }
    · rw [if_neg hb]
      exact ⟨rfl, rfl, rfl, rfl⟩

/-- Every record committed by the chunk loop carries the status of the input
record. -/
theorem runChunks_commit_status (insertOk : Nat → Bool) (cs : List (List α)) :
    ∀ (b total : Nat) (r r2 : ControlRecord),
      Event.ledgerCommit r2 ∈ (runChunks insertOk cs b total r).events →
      r2.status = r.status := by
  induction cs with
  | nil =>
    intro b total r r2 h
    simp [runChunks] at h
  | cons c cs ih =>
    intro b total r r2 h
    simp only [runChunks] at h
    by_cases hb : insertOk b = true
    · rw [if_pos hb] at h
      simp only [List.mem_cons] at h
      rcases h with h | h | h | h
      · injection h with h2
        subst h2
        rfl
      · exact absurd h (by simp)
      · injection h with h2
        subst h2
        rfl
      · exact ih (b + 1) (total + c.length)
          { r with current_batch := some b, loaded_rows := some (total + c.length) } r2 h
    · rw [if_neg hb] at h
      simp only [List.mem_cons, List.mem_singleton] at h
      rcases h with h | h
      · injection h with h2
        subst h2
        rfl
      · exact absurd h (by simp)

/-- The chunk loop emits no validation-gate events. -/
theorem runChunks_no_validate (insertOk : Nat → Bool) (cs : List (List α)) :
    ∀ (b total : Nat) (r : ControlRecord) (rows : List α),
      Event.validateCall rows ∉ (runChunks insertOk cs b total r).events := by
  induction cs with
  | nil =>
    intro b total r rows h
    simp [runChunks] at h
  | cons c cs ih =>
    intro b total r rows h
    simp only [runChunks] at h
    by_cases hb : insertOk b = true
    · rw [if_pos hb] at h
      simp only [List.mem_cons] at h
      rcases h with h | h | h | h
      · exact absurd h (by simp)
      · exact absurd h (by simp)
      · exact absurd h (by simp)
      · exact ih (b + 1) (total + c.length)
          { r with current_batch := some b, loaded_rows := some (total + c.length) } rows h
    · rw [if_neg hb] at h
      simp at h

/-- When every chunk insert succeeds, the loop completes: the total equals the
sum of the chunk lengths and, when at least one chunk ran, current_batch holds
the last batch number and loaded_rows the full total. -/
theorem runChunks_all_ok (insertOk : Nat → Bool) (cs : List (List α)) :
    ∀ (b total : Nat) (r : ControlRecord),
      (∀ j, j < cs.length → insertOk (b + j) = true) →
      ((runChunks insertOk cs b total r).ok = true) ∧
      ((runChunks insertOk cs b total r).total =
        total + (cs.map List.length).sum) ∧
      (cs = [] → (runChunks insertOk cs b total r).record = r) ∧
      (cs ≠ [] →
        (runChunks insertOk cs b total r).record.current_batch =
          some (b + cs.length - 1) ∧
        (runChunks insertOk cs b total r).record.loaded_rows =
          some (total + (cs.map List.length).sum)) := by
  induction cs with
  | nil =>
    intro b total r hok
    refine ⟨rfl, by simp [runChunks], fun _ => rfl, fun h => absurd rfl h⟩
  | cons c cs ih =>
    intro b total r hok
    have hb : insertOk b = true := by simpa using hok 0 (Nat.succ_pos _)
    have hok2 : ∀ j, j < cs.length → insertOk (b + 1 + j) = true := by
      intro j hj
      have h2 : b + 1 + j = b + (j + 1) := by omega
      rw [h2]
      exact hok (j + 1) (by simpa using Nat.succ_lt_succ hj)
    have hres := ih (b + 1) (total + c.length)
      { r with current_batch := some b, loaded_rows := some (total + c.length) } hok2
    simp only [runChunks]
    rw [if_pos hb]
    refine ⟨hres.1, ?_, by intro h; exact absurd h (by simp), ?_⟩
    · rw [hres.2.1]
      simp only [List.map_cons, List.sum_cons]
      omega
    · intro _
      cases cs with
      | nil =>
        have hrec := hres.2.2.1 rfl
        rw [hrec]
        constructor
        · simp
        · simp
      | cons c2 cs2 =>
        have hrec := (hres.2.2.2 (by simp))
        constructor
        · rw [hrec.1]
          congr 1
          simp only [List.length_cons]
          omega
        · rw [hrec.2]
          congr 1
          simp only [List.map_cons, List.sum_cons]
          omega

/-- When chunks 1..k (relative to start batch b) succeed and the next chunk is
rejected, the loop raises at once: the failing batch number is committed as
current_batch, loaded_rows reflects exactly the successful chunks, and k + 1
insert attempts were made. -/
theorem runChunks_fail (insertOk : Nat → Bool) (k : Nat) :
    ∀ (cs : List (List α)) (b total : Nat) (r : ControlRecord),
      k < cs.length → (∀ j, j < k → insertOk (b + j) = true) →
      insertOk (b + k) = false →
      ((runChunks insertOk cs b total r).ok = false) ∧
      ((runChunks insertOk cs b total r).total =
        total + ((cs.take k).map List.length).sum) ∧
      ((runChunks insertOk cs b total r).record.current_batch = some (b + k)) ∧
      (k = 0 → (runChunks insertOk cs b total r).record.loaded_rows = r.loaded_rows) ∧
      (0 < k → (runChunks insertOk cs b total r).record.loaded_rows =
        some (total + ((cs.take k).map List.length).sum)) ∧
      (countInserts (runChunks insertOk cs b total r).events = k + 1) := by
  induction k with
  | zero =>
    intro cs b total r hk hok hfail
    cases cs with
    | nil => simp at hk
    | cons c cs =>
      have hb : ¬ insertOk b = true := by
        intro hcontra
        rw [Nat.add_zero] at hfail
        rw [hfail] at hcontra
        exact Bool.false_ne_true hcontra
      simp only [runChunks]
      rw [if_neg hb]
      refine ⟨rfl, by simp, by simp, fun _ => rfl, fun h => absurd h (by omega), ?_⟩
      simp [countInserts]
  | succ k ih =>
    intro cs b total r hk hok hfail
    cases cs with
    | nil => simp at hk
    | cons c cs =>
      have hb : insertOk b = true := by simpa using hok 0 (Nat.succ_pos _)
      have hok2 : ∀ j, j < k → insertOk (b + 1 + j) = true := by
        intro j hj
        have h2 : b + 1 + j = b + (j + 1) := by omega
        rw [h2]
        exact hok (j + 1) (by omega)
      have hfail2 : insertOk (b + 1 + k) = false := by
        have h2 : b + 1 + k = b + (k + 1) := by omega
        rw [h2]
        exact hfail
      have hres := ih cs (b + 1) (total + c.length)
        { r with current_batch := some b, loaded_rows := some (total + c.length) }
        (by simpa using Nat.lt_of_succ_lt_succ hk) hok2 hfail2
      simp only [runChunks]
      rw [if_pos hb]
      refine ⟨hres.1, ?_, ?_, ?_, ?_, ?_⟩
      · rw [hres.2.1]
        simp only [List.take_succ_cons, List.map_cons, List.sum_cons]
        omega
      · rw [hres.2.2.1]
        congr 1
        omega
      · intro h
        exact absurd h (by omega)
      · intro _
        cases k with
        | zero =>
          have hld := hres.2.2.2.1 rfl
          rw [hld]
          simp
        | succ k2 =>
          have hld := hres.2.2.2.2.1 (Nat.succ_pos _)
          rw [hld]
          congr 1
          simp only [List.take_succ_cons, List.map_cons, List.sum_cons]
          omega
      · simp only [countInserts]
        rw [hres.2.2.2.2.2]

/-- batchWrites distributes over trace concatenation. -/
theorem batchWrites_append (l1 l2 : List (Event α)) :
    batchWrites (l1 ++ l2) = batchWrites l1 ++ batchWrites l2 := by
  induction l1 with
  | nil => simp [batchWrites]
  | cons e tl ih =>
    cases e with
    | ledgerCommit r => simp [batchWrites, ih]
    | validateCall rows => simp [batchWrites, ih]
    | insertAttempt b n ok => simp [batchWrites, ih]
    | moveFile s d ok => simp [batchWrites, ih]

/-- countInserts distributes over trace concatenation. -/
theorem countInserts_append (l1 l2 : List (Event α)) :
    countInserts (l1 ++ l2) = countInserts l1 + countInserts l2 := by
  induction l1 with
  | nil => simp [countInserts]
  | cons e tl ih =>
    cases e with
    | ledgerCommit r => simp [countInserts, ih]
    | validateCall rows => simp [countInserts, ih]
    | insertAttempt b n ok => simp [countInserts, ih]; omega
    | moveFile s d ok => simp [countInserts, ih]

/-- The current_batch write sequence of the chunk loop, extended by the final
record's current_batch, is non-decreasing and bounded below by the starting
batch bound. -/
theorem runChunks_chain (insertOk : Nat → Bool) (cs : List (List α)) :
    ∀ (b total : Nat) (r : ControlRecord),
      (∀ v, r.current_batch = some v → v ≤ b) →
      List.Chain' (fun x y => x ≤ y)
        (batchWrites (runChunks insertOk cs b total r).events ++
          (runChunks insertOk cs b total r).record.current_batch.toList) ∧
      (∀ x ∈ batchWrites (runChunks insertOk cs b total r).events ++
          (runChunks insertOk cs b total r).record.current_batch.toList,
        ∀ v, r.current_batch = some v → v ≤ x) := by
  induction cs with
  | nil =>
    intro b total r hr
    constructor
    · cases hc : r.current_batch with
      | none => simp [runChunks, batchWrites, hc]
      | some v => simp [runChunks, batchWrites, hc]
    · intro x hx v hv
      simp only [runChunks, batchWrites, List.nil_append] at hx
      rw [hv] at hx
      simp only [Option.toList_some, List.mem_singleton] at hx
      omega
  | cons c cs ih =>
    intro b total r hr
    by_cases hb : insertOk b = true
    · have hres := ih (b + 1) (total + c.length)
        { r with current_batch := some b, loaded_rows := some (total + c.length) }
        (by
          intro v hv
          have hv2 : some b = some v := hv
          have hbv := Option.some.inj hv2
          omega)
      simp only [runChunks]
      rw [if_pos hb]
      simp only [batchWrites, Option.toList_some, List.cons_append, List.nil_append,
        List.singleton_append]
      constructor
      · refine List.chain'_cons'.mpr ⟨?_, List.chain'_cons'.mpr ⟨?_, hres.1⟩⟩
        · intro y hy
          simp only [List.head?_cons, Option.mem_def, Option.some.injEq] at hy
          omega
        · intro y hy
          exact hres.2 y (List.mem_of_mem_head? hy) b rfl
      · intro x hx v hv
        simp only [List.mem_cons] at hx
        rcases hx with hx | hx | hx
        · subst hx
          exact hr v hv
        · subst hx
          exact hr v hv
        · have hge := hres.2 x hx b rfl
          have hle := hr v hv
          omega
    · simp only [runChunks]
      rw [if_neg hb]
      simp only [batchWrites, Option.toList_some, List.cons_append, List.nil_append,
        List.singleton_append]
      constructor
      · exact List.chain'_cons'.mpr ⟨by intro y hy; simp at hy; omega,
          List.chain'_singleton b⟩
      · intro x hx v hv
        simp only [List.mem_cons, List.mem_singleton] at hx
        have hle := hr v hv
        rcases hx with hx | hx | hx
        · omega
        · omega
        · simp at hx

/-- The per-file trace starts with the INITIATED and IN_PROGRESS commits
followed by the content events; everything after is file moves and terminal
commits only. -/
theorem process_file_tail (validate : List α → Bool) (insertOk : Nat → Bool)
    (archiveOk errorOk : Bool) (chunkSize : Nat) (cfg : StorageCfg)
    (pid fname fpath table : String) (df : List α) :
    ∃ tail : List (Event α),
      (process_file validate insertOk archiveOk errorOk chunkSize cfg
        pid fname fpath table df).events =
        Event.ledgerCommit (init_control_record pid fname fpath table) ::
        Event.ledgerCommit { init_control_record pid fname fpath table with
          status := Status.IN_PROGRESS } ::
        ((process_file_content validate insertOk chunkSize df
          { init_control_record pid fname fpath table with
            status := Status.IN_PROGRESS }).events ++ tail) ∧
      (∀ rows, Event.validateCall rows ∉ tail) ∧
      (∀ bn n ok2, Event.insertAttempt bn n ok2 ∉ tail) := by
  simp only [process_file, handle_error]
  by_cases hok : (process_file_content validate insertOk chunkSize df
      { init_control_record pid fname fpath table with
        status := Status.IN_PROGRESS }).ok = true
  · rw [if_pos hok]
    by_cases harc : archiveOk = true
    · rw [if_pos harc]
      refine ⟨_, rfl, ?_, ?_⟩
      · intro rows h
        simp at h
      · intro bn n ok2 h
        simp at h
    · rw [if_neg harc]
      by_cases herr : errorOk = true
      · rw [if_pos herr]
        refine ⟨_, rfl, ?_, ?_⟩
        · intro rows h
          simp at h
        · intro bn n ok2 h
          simp at h
      · rw [if_neg herr]
        refine ⟨_, rfl, ?_, ?_⟩
        · intro rows h
          simp at h
        · intro bn n ok2 h
          simp at h
  · rw [if_neg hok]
    by_cases herr : errorOk = true
    · rw [if_pos herr]
      refine ⟨_, rfl, ?_, ?_⟩
      · intro rows h
        simp at h
      · intro bn n ok2 h
        simp at h
    · rw [if_neg herr]
      refine ⟨_, rfl, ?_, ?_⟩
      · intro rows h
        simp at h
      · intro bn n ok2 h
        simp at h

/-- A trace without insert attempts counts zero inserts. -/
theorem countInserts_zero (l : List (Event α))
    (h : ∀ bn n ok2, Event.insertAttempt bn n ok2 ∉ l) : countInserts l = 0 := by
  induction l with
  | nil => rfl
  | cons e tl ih =>
    have htl : ∀ bn n ok2, Event.insertAttempt bn n ok2 ∉ tl := by
      intro bn n ok2 hmem
      exact h bn n ok2 (List.mem_cons_of_mem e hmem)
    cases e with
    | ledgerCommit r => simp [countInserts, ih htl]
    | validateCall rows => simp [countInserts, ih htl]
    | insertAttempt bn n ok2 => exact absurd (List.mem_cons_self _ _) (h bn n ok2)
    | moveFile s d ok2 => simp [countInserts, ih htl]

/-- Shape of a run whose validation gate rejects the row set: nothing is
inserted, and the attempt is routed through the error handler with the
validation message. -/
theorem process_file_invalid (validate : List α → Bool) (insertOk : Nat → Bool)
    (archiveOk errorOk : Bool) (chunkSize : Nat) (cfg : StorageCfg)
    (pid fname fpath table : String) (df : List α)
    (hval : validate df = false) :
    ((process_file validate insertOk archiveOk errorOk chunkSize cfg
        pid fname fpath table df).inserted = 0) ∧
    ((process_file validate insertOk archiveOk errorOk chunkSize cfg
        pid fname fpath table df).record =
      (handle_error errorOk cfg fname fpath "Data validation failed"
        { init_control_record pid fname fpath table with
          status := Status.IN_PROGRESS, total_rows := some df.length }
        : List (Event α) × ControlRecord).2) ∧
    ((process_file validate insertOk archiveOk errorOk chunkSize cfg
        pid fname fpath table df).events =
      [Event.ledgerCommit (init_control_record pid fname fpath table),
       Event.ledgerCommit { init_control_record pid fname fpath table with
         status := Status.IN_PROGRESS },
       Event.ledgerCommit { init_control_record pid fname fpath table with
         status := Status.IN_PROGRESS, total_rows := some df.length },
       Event.validateCall df] ++
      (handle_error errorOk cfg fname fpath "Data validation failed"
        { init_control_record pid fname fpath table with
          status := Status.IN_PROGRESS, total_rows := some df.length }
        : List (Event α) × ControlRecord).1) := by
  have hnv : ¬ validate df = true := by simp [hval]
  simp only [process_file, process_file_content]
  simp only [if_neg hnv]
  exact ⟨rfl, rfl, rfl⟩

/-- Shape of a fully successful run: the terminal SUCCESS/ARCHIVE commit is
the last event, after the archive move. -/
theorem process_file_valid_ok (validate : List α → Bool) (insertOk : Nat → Bool)
    (errorOk : Bool) (chunkSize : Nat) (cfg : StorageCfg)
    (pid fname fpath table : String) (df : List α)
    (hval : validate df = true)
    (hok : (runChunks insertOk (chunkList chunkSize df) 1 0
      { init_control_record pid fname fpath table with
        status := Status.IN_PROGRESS, total_rows := some df.length }).ok = true) :
    ((process_file validate insertOk true errorOk chunkSize cfg
        pid fname fpath table df).record =
      { (runChunks insertOk (chunkList chunkSize df) 1 0
          { init_control_record pid fname fpath table with
            status := Status.IN_PROGRESS, total_rows := some df.length }).record with
        status := Status.SUCCESS, file_location := FileLocation.ARCHIVE }) ∧
    ((process_file validate insertOk true errorOk chunkSize cfg
        pid fname fpath table df).inserted =
      (runChunks insertOk (chunkList chunkSize df) 1 0
        { init_control_record pid fname fpath table with
          status := Status.IN_PROGRESS, total_rows := some df.length }).total) ∧
    ((process_file validate insertOk true errorOk chunkSize cfg
        pid fname fpath table df).events =
      Event.ledgerCommit (init_control_record pid fname fpath table) ::
      Event.ledgerCommit { init_control_record pid fname fpath table with
        status := Status.IN_PROGRESS } ::
      Event.ledgerCommit { init_control_record pid fname fpath table with
        status := Status.IN_PROGRESS, total_rows := some df.length } ::
      Event.validateCall df ::
      ((runChunks insertOk (chunkList chunkSize df) 1 0
        { init_control_record pid fname fpath table with
          status := Status.IN_PROGRESS, total_rows := some df.length }).events ++
       [Event.moveFile fpath (archiveDest cfg fname) true,
        Event.ledgerCommit
          { (runChunks insertOk (chunkList chunkSize df) 1 0
              { init_control_record pid fname fpath table with
                status := Status.IN_PROGRESS, total_rows := some df.length }).record with
            status := Status.SUCCESS, file_location := FileLocation.ARCHIVE }])) := by
  simp only [process_file, process_file_content, process_batches]
  simp only [if_pos hval]
  try dsimp only
  simp only [if_pos hok]
  try dsimp only
  try simp only [if_pos (rfl : (true : Bool) = true)]
  exact ⟨rfl, rfl, rfl⟩

/-- Shape of a run whose chunk loop fails, with a successful error-folder
move: the error record is committed last, preserving the loop checkpoint
fields. -/
theorem process_file_valid_fail (validate : List α → Bool) (insertOk : Nat → Bool)
    (archiveOk : Bool) (chunkSize : Nat) (cfg : StorageCfg)
    (pid fname fpath table : String) (df : List α)
    (hval : validate df = true)
    (hokf : (runChunks insertOk (chunkList chunkSize df) 1 0
      { init_control_record pid fname fpath table with
        status := Status.IN_PROGRESS, total_rows := some df.length }).ok = false) :
    ((process_file validate insertOk archiveOk true chunkSize cfg
        pid fname fpath table df).record =
      errorRecord "batch failed"
        (runChunks insertOk (chunkList chunkSize df) 1 0
          { init_control_record pid fname fpath table with
            status := Status.IN_PROGRESS, total_rows := some df.length }).record) ∧
    ((process_file validate insertOk archiveOk true chunkSize cfg
        pid fname fpath table df).inserted =
      (runChunks insertOk (chunkList chunkSize df) 1 0
        { init_control_record pid fname fpath table with
          status := Status.IN_PROGRESS, total_rows := some df.length }).total) ∧
    ((process_file validate insertOk archiveOk true chunkSize cfg
        pid fname fpath table df).events =
      Event.ledgerCommit (init_control_record pid fname fpath table) ::
      Event.ledgerCommit { init_control_record pid fname fpath table with
        status := Status.IN_PROGRESS } ::
      Event.ledgerCommit { init_control_record pid fname fpath table with
        status := Status.IN_PROGRESS, total_rows := some df.length } ::
      Event.validateCall df ::
      ((runChunks insertOk (chunkList chunkSize df) 1 0
        { init_control_record pid fname fpath table with
          status := Status.IN_PROGRESS, total_rows := some df.length }).events ++
       [Event.moveFile fpath (errorDest cfg fname) true,
        Event.ledgerCommit
          (errorRecord "batch failed"
            (runChunks insertOk (chunkList chunkSize df) 1 0
              { init_control_record pid fname fpath table with
                status := Status.IN_PROGRESS, total_rows := some df.length }).record)])) := by
  have hnot : ¬ (runChunks insertOk (chunkList chunkSize df) 1 0
      { init_control_record pid fname fpath table with
        status := Status.IN_PROGRESS, total_rows := some df.length }).ok = true := by
    simp [hokf]
  simp only [process_file, process_file_content, process_batches, handle_error]
  simp only [if_pos hval]
  try dsimp only
  simp only [if_neg hnot]
  try simp only [if_pos (rfl : (true : Bool) = true)]
  refine ⟨?_, ?_, ?_⟩ <;> (first | rfl | trivial)

/-! ## C3 — the validation gate runs once, on the full row set, before load -/

/-- C3: in every attempt the gate is called exactly once, on the full parsed
row set, directly after the total_rows commit and before any insert attempt;
when the gate rejects, nothing is inserted, no insert attempt is ever made,
and the attempt does not end in SUCCESS. -/
theorem c3_validation_gate (validate : List α → Bool) (insertOk : Nat → Bool)
    (archiveOk errorOk : Bool) (chunkSize : Nat) (cfg : StorageCfg)
    (pid fname fpath table : String) (df : List α) :
    ((process_file validate insertOk archiveOk errorOk chunkSize cfg
        pid fname fpath table df).events.take 4 =
      [Event.ledgerCommit (init_control_record pid fname fpath table),
       Event.ledgerCommit { init_control_record pid fname fpath table with
         status := Status.IN_PROGRESS },
       Event.ledgerCommit { init_control_record pid fname fpath table with
         status := Status.IN_PROGRESS, total_rows := some df.length },
       Event.validateCall df]) ∧
    (∀ rows, Event.validateCall rows ∉
      (process_file validate insertOk archiveOk errorOk chunkSize cfg
        pid fname fpath table df).events.drop 4) ∧
    (validate df = false →
      (process_file validate insertOk archiveOk errorOk chunkSize cfg
        pid fname fpath table df).inserted = 0 ∧
      (∀ bn n ok2, Event.insertAttempt bn n ok2 ∉
        (process_file validate insertOk archiveOk errorOk chunkSize cfg
          pid fname fpath table df).events) ∧
      (process_file validate insertOk archiveOk errorOk chunkSize cfg
        pid fname fpath table df).record.status ≠ Status.SUCCESS) := by
  obtain ⟨tail, hev, htailv, htaili⟩ := process_file_tail validate insertOk archiveOk
    errorOk chunkSize cfg pid fname fpath table df
  by_cases hval : validate df = true
  · have hce : (process_file_content validate insertOk chunkSize df
        { init_control_record pid fname fpath table with
          status := Status.IN_PROGRESS }).events =
        Event.ledgerCommit { init_control_record pid fname fpath table with
          status := Status.IN_PROGRESS, total_rows := some df.length } ::
        Event.validateCall df ::
        (runChunks insertOk (chunkList chunkSize df) 1 0
          { init_control_record pid fname fpath table with
            status := Status.IN_PROGRESS, total_rows := some df.length }).events := by
      simp only [process_file_content, process_batches]
      simp only [if_pos hval]
    refine ⟨?_, ?_, ?_⟩
    · rw [hev, hce]
      rfl
    · intro rows h
      rw [hev, hce] at h
      have h2 : Event.validateCall rows ∈
          (runChunks insertOk (chunkList chunkSize df) 1 0
            { init_control_record pid fname fpath table with
              status := Status.IN_PROGRESS, total_rows := some df.length }).events
            ++ tail := h
      rcases List.mem_append.mp h2 with h3 | h3
      · exact runChunks_no_validate insertOk (chunkList chunkSize df) 1 0 _ rows h3
      · exact htailv rows h3
    · intro hvf
      rw [hval] at hvf
      exact Bool.noConfusion hvf
  · have hval2 : validate df = false := by
      cases hvb : validate df with
      | true => exact absurd hvb hval
      | false => rfl
    have hce : (process_file_content validate insertOk chunkSize df
        { init_control_record pid fname fpath table with
          status := Status.IN_PROGRESS }).events =
        [Event.ledgerCommit { init_control_record pid fname fpath table with
          status := Status.IN_PROGRESS, total_rows := some df.length },
         Event.validateCall df] := by
      simp only [process_file_content]
      simp only [if_neg hval]
    obtain ⟨hins, hrec, _⟩ := process_file_invalid validate insertOk archiveOk errorOk
      chunkSize cfg pid fname fpath table df hval2
    refine ⟨?_, ?_, ?_⟩
    · rw [hev, hce]
      rfl
    · intro rows h
      rw [hev, hce] at h
      have h2 : Event.validateCall rows ∈ tail := h
      exact htailv rows h2
    · intro _
      refine ⟨hins, ?_, ?_⟩
      · intro bn n ok2 h
        rw [hev, hce] at h
        have h2 : Event.insertAttempt bn n ok2 ∈
            Event.ledgerCommit (init_control_record pid fname fpath table) ::
            Event.ledgerCommit { init_control_record pid fname fpath table with
              status := Status.IN_PROGRESS } ::
            Event.ledgerCommit { init_control_record pid fname fpath table with
              status := Status.IN_PROGRESS, total_rows := some df.length } ::
            Event.validateCall df :: tail := h
        simp only [List.mem_cons] at h2
        rcases h2 with h3 | h3 | h3 | h3 | h3
        · exact Event.noConfusion h3
        · exact Event.noConfusion h3
        · exact Event.noConfusion h3
        · exact Event.noConfusion h3
        · exact htaili bn n ok2 h3
      · rw [hrec]
        by_cases herr : errorOk = true
        · simp only [handle_error, if_pos herr, errorRecord]
          intro hcontra
          exact Status.noConfusion hcontra
        · simp only [handle_error, if_neg herr]
          intro hcontra
          exact Status.noConfusion hcontra

/-- C3 witness: a run whose gate rejects a concrete three-row set makes no
insert attempt and loads nothing. -/
theorem c3_validation_gate_witness :
    ((fun _ => false) : List Nat → Bool) [0, 1, 2] = false ∧
    (process_file (fun _ => false) (fun _ => true) true true 2 cfgW
      "pid-1" "data.csv" "input/data.csv" "t" [0, 1, 2]).inserted = 0 :=
  ⟨rfl,
    ((c3_validation_gate (fun _ => false) (fun _ => true) true true 2 cfgW
      "pid-1" "data.csv" "input/data.csv" "t" [0, 1, 2]).2.2 rfl).1⟩


/-- Shape of a successful load whose archive move fails: the attempt is routed
through the error handler with the archive-move message. -/
theorem process_file_valid_ok_noarc (validate : List α → Bool) (insertOk : Nat → Bool)
    (errorOk : Bool) (chunkSize : Nat) (cfg : StorageCfg)
    (pid fname fpath table : String) (df : List α)
    (hval : validate df = true)
    (hok : (runChunks insertOk (chunkList chunkSize df) 1 0
      { init_control_record pid fname fpath table with
        status := Status.IN_PROGRESS, total_rows := some df.length }).ok = true) :
    ((process_file validate insertOk false errorOk chunkSize cfg
        pid fname fpath table df).record =
      (handle_error errorOk cfg fname fpath "archive move failed"
        (runChunks insertOk (chunkList chunkSize df) 1 0
          { init_control_record pid fname fpath table with
            status := Status.IN_PROGRESS, total_rows := some df.length }).record
        : List (Event α) × ControlRecord).2) ∧
    ((process_file validate insertOk false errorOk chunkSize cfg
        pid fname fpath table df).events =
      Event.ledgerCommit (init_control_record pid fname fpath table) ::
      Event.ledgerCommit { init_control_record pid fname fpath table with
        status := Status.IN_PROGRESS } ::
      Event.ledgerCommit { init_control_record pid fname fpath table with
        status := Status.IN_PROGRESS, total_rows := some df.length } ::
      Event.validateCall df ::
      ((runChunks insertOk (chunkList chunkSize df) 1 0
        { init_control_record pid fname fpath table with
          status := Status.IN_PROGRESS, total_rows := some df.length }).events ++
       (Event.moveFile fpath (archiveDest cfg fname) false ::
        (handle_error errorOk cfg fname fpath "archive move failed"
          (runChunks insertOk (chunkList chunkSize df) 1 0
            { init_control_record pid fname fpath table with
              status := Status.IN_PROGRESS, total_rows := some df.length }).record
          : List (Event α) × ControlRecord).1))) := by
  simp only [process_file, process_file_content, process_batches]
  simp only [if_pos hval]
  try dsimp only
  simp only [if_pos hok]
  try dsimp only
  rw [if_neg (by simp : ¬ (false : Bool) = true)]
  exact ⟨rfl, rfl⟩

/-- Shape of a run whose chunk loop fails, for an arbitrary error-move
outcome. -/
theorem process_file_chunk_fail (validate : List α → Bool) (insertOk : Nat → Bool)
    (archiveOk errorOk : Bool) (chunkSize : Nat) (cfg : StorageCfg)
    (pid fname fpath table : String) (df : List α)
    (hval : validate df = true)
    (hokf : ¬ (runChunks insertOk (chunkList chunkSize df) 1 0
      { init_control_record pid fname fpath table with
        status := Status.IN_PROGRESS, total_rows := some df.length }).ok = true) :
    ((process_file validate insertOk archiveOk errorOk chunkSize cfg
        pid fname fpath table df).record =
      (handle_error errorOk cfg fname fpath "batch failed"
        (runChunks insertOk (chunkList chunkSize df) 1 0
          { init_control_record pid fname fpath table with
            status := Status.IN_PROGRESS, total_rows := some df.length }).record
        : List (Event α) × ControlRecord).2) ∧
    ((process_file validate insertOk archiveOk errorOk chunkSize cfg
        pid fname fpath table df).inserted =
      (runChunks insertOk (chunkList chunkSize df) 1 0
        { init_control_record pid fname fpath table with
          status := Status.IN_PROGRESS, total_rows := some df.length }).total) ∧
    ((process_file validate insertOk archiveOk errorOk chunkSize cfg
        pid fname fpath table df).events =
      Event.ledgerCommit (init_control_record pid fname fpath table) ::
      Event.ledgerCommit { init_control_record pid fname fpath table with
        status := Status.IN_PROGRESS } ::
      Event.ledgerCommit { init_control_record pid fname fpath table with
        status := Status.IN_PROGRESS, total_rows := some df.length } ::
      Event.validateCall df ::
      ((runChunks insertOk (chunkList chunkSize df) 1 0
        { init_control_record pid fname fpath table with
          status := Status.IN_PROGRESS, total_rows := some df.length }).events ++
       (handle_error errorOk cfg fname fpath "batch failed"
        (runChunks insertOk (chunkList chunkSize df) 1 0
          { init_control_record pid fname fpath table with
            status := Status.IN_PROGRESS, total_rows := some df.length }).record
        : List (Event α) × ControlRecord).1)) := by
  simp only [process_file, process_file_content, process_batches]
  simp only [if_pos hval]
  try dsimp only
  simp only [if_neg hokf]
  refine ⟨?_, ?_, ?_⟩ <;> (first | rfl | trivial)

/-- Write sequence of the error handler when the error move succeeds: exactly
the failed record's checkpoint value. -/
theorem handle_error_batchWrites_true (cfg : StorageCfg) (fname fpath msg : String)
    (r : ControlRecord) :
    batchWrites ((handle_error true cfg fname fpath msg r
      : List (Event α) × ControlRecord).1) = r.current_batch.toList := by
  simp [handle_error, batchWrites, errorRecord]

/-- Write sequence of the error handler when the error move fails: nothing is
committed. -/
theorem handle_error_batchWrites_false (cfg : StorageCfg) (fname fpath msg : String)
    (r : ControlRecord) :
    batchWrites ((handle_error false cfg fname fpath msg r
      : List (Event α) × ControlRecord).1) = [] := by
  simp [handle_error, batchWrites]

/-! ## C7 — current_batch equals the chunk count and never decreases -/

/-- C7: within one attempt the committed current_batch values never decrease,
and after a fully successful load of a nonempty row set the final record's
current_batch equals the number of whole chunks of the load. -/
theorem c7_current_batch_monotone (validate : List α → Bool) (insertOk : Nat → Bool)
    (archiveOk errorOk : Bool) (chunkSize : Nat) (cfg : StorageCfg)
    (pid fname fpath table : String) (df : List α) :
    List.Chain' (fun x y => x ≤ y)
      (batchWrites (process_file validate insertOk archiveOk errorOk chunkSize cfg
        pid fname fpath table df).events) ∧
    ((∀ b2, insertOk b2 = true) → validate df = true → archiveOk = true →
      0 < chunkSize → df ≠ [] →
      (process_file validate insertOk archiveOk errorOk chunkSize cfg
        pid fname fpath table df).record.current_batch =
        some (chunkList chunkSize df).length) := by
  have hchain := runChunks_chain insertOk (chunkList chunkSize df) 1 0
    { init_control_record pid fname fpath table with
      status := Status.IN_PROGRESS, total_rows := some df.length }
    (by
      intro v hv
      have hv2 : (none : Option Nat) = some v := hv
      exact Option.noConfusion hv2)
  constructor
  · by_cases hval : validate df = true
    · by_cases hok : (runChunks insertOk (chunkList chunkSize df) 1 0
          { init_control_record pid fname fpath table with
            status := Status.IN_PROGRESS, total_rows := some df.length }).ok = true
      · by_cases harc : archiveOk = true
        · subst harc
          obtain ⟨_, _, hevents⟩ := process_file_valid_ok validate insertOk errorOk
            chunkSize cfg pid fname fpath table df hval hok
          rw [hevents]
          simp only [batchWrites, batchWrites_append, init_control_record,
            Option.toList_none, Option.toList_some, List.nil_append, List.append_nil]
          exact hchain.1
        · have harcf : archiveOk = false := by
            cases archiveOk with
            | true => exact absurd rfl harc
            | false => rfl
          subst harcf
          obtain ⟨_, hevents⟩ := process_file_valid_ok_noarc validate insertOk errorOk
            chunkSize cfg pid fname fpath table df hval hok
          rw [hevents]
          simp only [batchWrites, batchWrites_append, init_control_record,
            Option.toList_none, List.nil_append]
          cases errorOk with
          | true =>
            rw [handle_error_batchWrites_true]
            exact hchain.1
          | false =>
            rw [handle_error_batchWrites_false]
            rw [List.append_nil]
            exact (List.chain'_append.mp hchain.1).1
      · obtain ⟨_, _, hevents⟩ := process_file_chunk_fail validate insertOk archiveOk
          errorOk chunkSize cfg pid fname fpath table df hval hok
        rw [hevents]
        simp only [batchWrites, batchWrites_append, init_control_record,
          Option.toList_none, List.nil_append]
        cases errorOk with
        | true =>
          rw [handle_error_batchWrites_true]
          exact hchain.1
        | false =>
          rw [handle_error_batchWrites_false]
          rw [List.append_nil]
          exact (List.chain'_append.mp hchain.1).1
    · have hval2 : validate df = false := by
        cases hvb : validate df with
        | true => exact absurd hvb hval
        | false => rfl
      obtain ⟨_, _, hevents⟩ := process_file_invalid validate insertOk archiveOk errorOk
        chunkSize cfg pid fname fpath table df hval2
      rw [hevents]
      simp only [batchWrites, batchWrites_append, init_control_record,
        Option.toList_none, List.nil_append, List.cons_append, List.append_eq]
      cases errorOk with
      | true =>
        rw [handle_error_batchWrites_true]
        simp only [Option.toList_none]
        exact List.chain'_nil
      | false =>
        rw [handle_error_batchWrites_false]
        exact List.chain'_nil
  · intro hins hval harc hcs hdf
    subst harc
    have hall := runChunks_all_ok insertOk (chunkList chunkSize df) 1 0
      { init_control_record pid fname fpath table with
        status := Status.IN_PROGRESS, total_rows := some df.length }
      (fun j _ => hins (1 + j))
    obtain ⟨hrec, _, _⟩ := process_file_valid_ok validate insertOk errorOk
      chunkSize cfg pid fname fpath table df hval hall.1
    rw [hrec]
    have hne := chunkList_ne_nil chunkSize df hdf
    have hcur := (hall.2.2.2 hne).1
    show (runChunks insertOk (chunkList chunkSize df) 1 0
      { init_control_record pid fname fpath table with
        status := Status.IN_PROGRESS, total_rows := some df.length }).record.current_batch
      = some (chunkList chunkSize df).length
    rw [hcur]
    congr 1
    have hpos : 0 < (chunkList chunkSize df).length := List.length_pos.mpr hne
    omega

/-- C7 witness: three rows in chunks of two load in 2 chunks; the final
current_batch is 2. -/
theorem c7_current_batch_monotone_witness :
    (∀ b2 : Nat, (fun _ => true) b2 = true) ∧
    ((fun _ => true) : List Nat → Bool) [0, 1, 2] = true ∧
    (0 : Nat) < 2 ∧ ([0, 1, 2] : List Nat) ≠ [] ∧
    (process_file (fun _ => true) (fun _ => true) true true 2 cfgW
      "pid-1" "data.csv" "input/data.csv" "t" [0, 1, 2]).record.current_batch =
      some (chunkList 2 [0, 1, 2]).length :=
  ⟨fun _ => rfl, rfl, by decide, by decide,
    (c7_current_batch_monotone (fun _ => true) (fun _ => true) true true 2 cfgW
      "pid-1" "data.csv" "input/data.csv" "t" [0, 1, 2]).2
      (fun _ => rfl) rfl rfl (by decide) (by decide)⟩

/-- The error handler sends no chunks. -/
theorem handle_error_countInserts (errorOk : Bool) (cfg : StorageCfg)
    (fname fpath msg : String) (r : ControlRecord) :
    countInserts ((handle_error errorOk cfg fname fpath msg r
      : List (Event α) × ControlRecord).1) = 0 := by
  cases errorOk <;> simp [handle_error, countInserts]

/-! ## C2 — successful attempts end SUCCESS/ARCHIVE after the relocation -/

/-- C2 counterexample: an empty row set completes successfully (SUCCESS,
ARCHIVE) but its loaded_rows is never written and stays null, while
total_rows is 0 — so loaded_rows does not equal total_rows on this
successful attempt. -/
theorem c2_counterexample :
    (process_file (fun _ => true) (fun _ => true) true true 2 cfgW
      "pid-1" "data.csv" "input/data.csv" "t" ([] : List Nat)).record.status
      = Status.SUCCESS ∧
    (process_file (fun _ => true) (fun _ => true) true true 2 cfgW
      "pid-1" "data.csv" "input/data.csv" "t" ([] : List Nat)).record.file_location
      = FileLocation.ARCHIVE ∧
    (process_file (fun _ => true) (fun _ => true) true true 2 cfgW
      "pid-1" "data.csv" "input/data.csv" "t" ([] : List Nat)).record.total_rows
      = some 0 ∧
    (process_file (fun _ => true) (fun _ => true) true true 2 cfgW
      "pid-1" "data.csv" "input/data.csv" "t" ([] : List Nat)).record.loaded_rows
      = none ∧
    (none : Option Nat) ≠ some 0 := by
  decide

/-- C2 (amended): for every attempt on a nonempty row set that completes
successfully, the final record has loaded_rows = total_rows = the row count,
status SUCCESS and file_location ARCHIVE, the terminal commit is the last
event, it happens only after the successful move to the date-stamped archive
destination, and no earlier commit carries SUCCESS.  (For an empty row set
the attempt still ends SUCCESS/ARCHIVE but loaded_rows remains null.) -/
theorem c2_success_terminal_state (validate : List α → Bool) (insertOk : Nat → Bool)
    (errorOk : Bool) (chunkSize : Nat) (cfg : StorageCfg)
    (pid fname fpath table : String) (df : List α)
    (hval : validate df = true) (hins : ∀ b2, insertOk b2 = true)
    (hcs : 0 < chunkSize) (hdf : df ≠ []) :
    (process_file validate insertOk true errorOk chunkSize cfg
      pid fname fpath table df).record.status = Status.SUCCESS ∧
    (process_file validate insertOk true errorOk chunkSize cfg
      pid fname fpath table df).record.file_location = FileLocation.ARCHIVE ∧
    (process_file validate insertOk true errorOk chunkSize cfg
      pid fname fpath table df).record.total_rows = some df.length ∧
    (process_file validate insertOk true errorOk chunkSize cfg
      pid fname fpath table df).record.loaded_rows = some df.length ∧
    (∃ pre,
      (process_file validate insertOk true errorOk chunkSize cfg
        pid fname fpath table df).events =
        pre ++ [Event.moveFile fpath (archiveDest cfg fname) true,
          Event.ledgerCommit (process_file validate insertOk true errorOk chunkSize cfg
            pid fname fpath table df).record] ∧
      (∀ r2, Event.ledgerCommit r2 ∈ pre → r2.status ≠ Status.SUCCESS)) := by
  have hall := runChunks_all_ok insertOk (chunkList chunkSize df) 1 0
    { init_control_record pid fname fpath table with
      status := Status.IN_PROGRESS, total_rows := some df.length }
    (fun j _ => hins (1 + j))
  obtain ⟨hrec, hins2, hevents⟩ := process_file_valid_ok validate insertOk errorOk
    chunkSize cfg pid fname fpath table df hval hall.1
  have hne := chunkList_ne_nil chunkSize df hdf
  have hsum := chunkList_sum_length chunkSize hcs df
  refine ⟨by rw [hrec], by rw [hrec], ?_, ?_, ?_⟩
  · rw [hrec]
    show (runChunks insertOk (chunkList chunkSize df) 1 0
      { init_control_record pid fname fpath table with
        status := Status.IN_PROGRESS, total_rows := some df.length }).record.total_rows
      = some df.length
    exact (runChunks_frame insertOk (chunkList chunkSize df) 1 0
      { init_control_record pid fname fpath table with
        status := Status.IN_PROGRESS, total_rows := some df.length }).2.1
  · rw [hrec]
    show (runChunks insertOk (chunkList chunkSize df) 1 0
      { init_control_record pid fname fpath table with
        status := Status.IN_PROGRESS, total_rows := some df.length }).record.loaded_rows
      = some df.length
    rw [(hall.2.2.2 hne).2, hsum]
    simp
  · refine ⟨Event.ledgerCommit (init_control_record pid fname fpath table) ::
      Event.ledgerCommit { init_control_record pid fname fpath table with
        status := Status.IN_PROGRESS } ::
      Event.ledgerCommit { init_control_record pid fname fpath table with
        status := Status.IN_PROGRESS, total_rows := some df.length } ::
      Event.validateCall df ::
      (runChunks insertOk (chunkList chunkSize df) 1 0
        { init_control_record pid fname fpath table with
          status := Status.IN_PROGRESS, total_rows := some df.length }).events, ?_, ?_⟩
    · rw [hevents, hrec]
      simp only [List.cons_append, List.append_assoc]
    · intro r2 hmem
      simp only [List.mem_cons] at hmem
      rcases hmem with h | h | h | h | h
      · injection h with h2
        subst h2
        intro hc
        have hc2 : Status.INITIATED = Status.SUCCESS := hc
        exact Status.noConfusion hc2
      · injection h with h2
        subst h2
        intro hc
        have hc2 : Status.IN_PROGRESS = Status.SUCCESS := hc
        exact Status.noConfusion hc2
      · injection h with h2
        subst h2
        intro hc
        have hc2 : Status.IN_PROGRESS = Status.SUCCESS := hc
        exact Status.noConfusion hc2
      · exact Event.noConfusion h
      · have hst := runChunks_commit_status insertOk (chunkList chunkSize df) 1 0
          { init_control_record pid fname fpath table with
            status := Status.IN_PROGRESS, total_rows := some df.length } r2 h
        rw [hst]
        intro hc
        have hc2 : Status.IN_PROGRESS = Status.SUCCESS := hc
        exact Status.noConfusion hc2

/-- C2 witness: a three-row set with chunk size two ends SUCCESS with
loaded_rows = total_rows = 3. -/
theorem c2_success_terminal_state_witness :
    ((fun _ => true) : List Nat → Bool) [0, 1, 2] = true ∧
    (∀ b2 : Nat, (fun _ => true) b2 = true) ∧ (0 : Nat) < 2 ∧
    ([0, 1, 2] : List Nat) ≠ [] ∧
    (process_file (fun _ => true) (fun _ => true) true true 2 cfgW
      "pid-1" "data.csv" "input/data.csv" "t" [0, 1, 2]).record.status
      = Status.SUCCESS ∧
    (process_file (fun _ => true) (fun _ => true) true true 2 cfgW
      "pid-1" "data.csv" "input/data.csv" "t" [0, 1, 2]).record.loaded_rows
      = some 3 :=
  ⟨rfl, fun _ => rfl, by decide, by decide,
    (c2_success_terminal_state (fun _ => true) (fun _ => true) true 2 cfgW
      "pid-1" "data.csv" "input/data.csv" "t" [0, 1, 2]
      rfl (fun _ => rfl) (by decide) (by decide)).1,
    (c2_success_terminal_state (fun _ => true) (fun _ => true) true 2 cfgW
      "pid-1" "data.csv" "input/data.csv" "t" [0, 1, 2]
      rfl (fun _ => rfl) (by decide) (by decide)).2.2.2.1⟩

/-! ## C1 — ledger state after a failed chunk -/

/-- C1 counterexample: in the 3-row, chunk-size-2 scenario where chunk 2
fails after chunk 1 committed, the final record has loaded_rows = 2 as the
claim says but current_batch = 2 (the failed chunk's number, committed before
the insert attempt), not 1 as the claim requires. -/
theorem c1_counterexample :
    (process_file (fun _ => true) (fun b2 => b2 == 1) true true 2 cfgW
      "pid-1" "data.csv" "input/data.csv" "t" [0, 1, 2]).record.loaded_rows
      = some 2 ∧
    (process_file (fun _ => true) (fun b2 => b2 == 1) true true 2 cfgW
      "pid-1" "data.csv" "input/data.csv" "t" [0, 1, 2]).record.status
      = Status.ERROR ∧
    (process_file (fun _ => true) (fun b2 => b2 == 1) true true 2 cfgW
      "pid-1" "data.csv" "input/data.csv" "t" [0, 1, 2]).record.current_batch
      = some 2 ∧
    (some 2 : Option Nat) ≠ some 1 := by
  decide

/-- C1 (amended): when chunks 1..k commit and chunk k+1 fails, the loader
raises immediately — exactly k+1 insert attempts are made and the attempt
ends ERROR — and the final ledger has loaded_rows equal to the row count of
chunks 1..k (null when k = 0), but current_batch equal to k+1, the failed
chunk's number, because the loop commits current_batch before attempting each
insert. -/
theorem c1_failed_chunk_ledger (validate : List α → Bool) (insertOk : Nat → Bool)
    (archiveOk : Bool) (chunkSize : Nat) (cfg : StorageCfg)
    (pid fname fpath table : String) (df : List α) (k : Nat)
    (hval : validate df = true)
    (hk : k < (chunkList chunkSize df).length)
    (hok : ∀ b2, 1 ≤ b2 → b2 ≤ k → insertOk b2 = true)
    (hfail : insertOk (k + 1) = false) :
    (process_file validate insertOk archiveOk true chunkSize cfg
      pid fname fpath table df).record.status = Status.ERROR ∧
    countInserts (process_file validate insertOk archiveOk true chunkSize cfg
      pid fname fpath table df).events = k + 1 ∧
    (process_file validate insertOk archiveOk true chunkSize cfg
      pid fname fpath table df).record.current_batch = some (k + 1) ∧
    (k = 0 → (process_file validate insertOk archiveOk true chunkSize cfg
      pid fname fpath table df).record.loaded_rows = none) ∧
    (0 < k → (process_file validate insertOk archiveOk true chunkSize cfg
      pid fname fpath table df).record.loaded_rows =
      some ((((chunkList chunkSize df).take k).map List.length).sum)) ∧
    (process_file validate insertOk archiveOk true chunkSize cfg
      pid fname fpath table df).inserted =
      (((chunkList chunkSize df).take k).map List.length).sum := by
  have hok2 : ∀ j, j < k → insertOk (1 + j) = true := by
    intro j hj
    exact hok (1 + j) (by omega) (by omega)
  have hfail2 : insertOk (1 + k) = false := by
    rw [Nat.add_comm]
    exact hfail
  have hfl := runChunks_fail insertOk k (chunkList chunkSize df) 1 0
    { init_control_record pid fname fpath table with
      status := Status.IN_PROGRESS, total_rows := some df.length } hk hok2 hfail2
  have hokf : ¬ (runChunks insertOk (chunkList chunkSize df) 1 0
      { init_control_record pid fname fpath table with
        status := Status.IN_PROGRESS, total_rows := some df.length }).ok = true := by
    rw [hfl.1]
    exact Bool.false_ne_true
  obtain ⟨hrec, hins2, hevents⟩ := process_file_chunk_fail validate insertOk archiveOk
    true chunkSize cfg pid fname fpath table df hval hokf
  refine ⟨?_, ?_, ?_, ?_, ?_, ?_⟩
  · rw [hrec]
    rfl
  · rw [hevents]
    simp only [countInserts, countInserts_append, handle_error_countInserts]
    have hc := hfl.2.2.2.2.2
    simpa using hc
  · rw [hrec]
    show (runChunks insertOk (chunkList chunkSize df) 1 0
      { init_control_record pid fname fpath table with
        status := Status.IN_PROGRESS, total_rows := some df.length }).record.current_batch
      = some (k + 1)
    rw [hfl.2.2.1]
    congr 1
    omega
  · intro hk0
    rw [hrec]
    show (runChunks insertOk (chunkList chunkSize df) 1 0
      { init_control_record pid fname fpath table with
        status := Status.IN_PROGRESS, total_rows := some df.length }).record.loaded_rows
      = none
    rw [hfl.2.2.2.1 hk0]
    rfl
  · intro hkpos
    rw [hrec]
    show (runChunks insertOk (chunkList chunkSize df) 1 0
      { init_control_record pid fname fpath table with
        status := Status.IN_PROGRESS, total_rows := some df.length }).record.loaded_rows
      = some ((((chunkList chunkSize df).take k).map List.length).sum)
    rw [hfl.2.2.2.2.1 hkpos]
    simp
  · rw [hins2, hfl.2.1]
    simp

/-- C1 witness: the amended claim at the spec scenario (k = 1, chunk size 2,
three rows): loaded_rows = 2 and current_batch = 2 with exactly 2 insert
attempts. -/
theorem c1_failed_chunk_ledger_witness :
    ((fun _ => true) : List Nat → Bool) [0, 1, 2] = true ∧
    (1 : Nat) < (chunkList 2 [0, 1, 2] : List (List Nat)).length ∧
    (∀ b2, 1 ≤ b2 → b2 ≤ 1 → ((fun b2 => b2 == 1) b2 : Bool) = true) ∧
    ((fun b2 => b2 == 1) (1 + 1) : Bool) = false ∧
    (process_file (fun _ => true) (fun b2 => b2 == 1) true true 2 cfgW
      "pid-1" "data.csv" "input/data.csv" "t" [0, 1, 2]).record.current_batch
      = some 2 ∧
    (process_file (fun _ => true) (fun b2 => b2 == 1) true true 2 cfgW
      "pid-1" "data.csv" "input/data.csv" "t" [0, 1, 2]).record.loaded_rows
      = some (((chunkList 2 [0, 1, 2] : List (List Nat)).take 1).map List.length).sum := by
  have hok : ∀ b2, 1 ≤ b2 → b2 ≤ 1 → ((fun b2 => b2 == 1) b2 : Bool) = true := by
    intro b2 h1 h2
    have hb : b2 = 1 := Nat.le_antisymm h2 h1
    subst hb
    rfl
  have hthm := c1_failed_chunk_ledger (fun _ => true) (fun b2 => b2 == 1) true 2 cfgW
    "pid-1" "data.csv" "input/data.csv" "t" [0, 1, 2] 1 rfl (by decide) hok (by decide)
  exact ⟨rfl, by decide, hok, by decide, hthm.2.2.1, hthm.2.2.2.2.1 (by decide)⟩
